import Mathlib

/-!
Verification development for the Counterparty consensus core
(`counterpartycore/lib/messages/broadcast.py` and
`counterpartycore/lib/messages/dispenser.py`).

The Python code is shallowly embedded: pure functions become Lean
functions, the ledger tables touched by these two message engines become
explicit list-valued state, machine integers become `Int`/`Nat`, and
Python exceptions become `Except`/`Option` values.  Python `float`s are
embedded as exact rationals (`ℚ`); every concrete input used in a
theorem below is dyadic and small enough that the Python `float`
computation is exact, so the embedding and the code agree at those
inputs.  Repository code that is outside the two source modules
(config constants, `helpers`, `ledger` accessors, the CBOR and address
codecs) is either modelled from the specification (doc comments say so)
or abstracted into an `Externals` record of functions that theorems
quantify over.
-/

/-- `config.MAX_INT` (spec §6: `MAX_INT = 2^63 − 1`). -/
def MAX_INT : ℤ := 2 ^ 63 - 1

/-- `config.UNIT` (spec §6: `UNIT = 10^8`). -/
def UNIT : ℤ := 100000000

/-- Python `int(x)` applied to a number: truncation toward zero. -/
def pyIntTrunc (q : ℚ) : ℤ := if 0 ≤ q then ⌊q⌋ else ⌈q⌉

/-- Python `round(x)` with no digits argument: round half to even
(banker's rounding), as applied by `broadcast.parse` to the two CFD
credits. -/
def roundHalfEven (q : ℚ) : ℤ :=
  if Int.fract q < 1 / 2 then ⌊q⌋
  else if 1 / 2 < Int.fract q then ⌊q⌋ + 1
  else if ⌊q⌋ % 2 = 0 then ⌊q⌋ else ⌊q⌋ + 1

/-- Python `"; ".join(problems)`. -/
def joinSemi (l : List String) : String := String.intercalate "; " l

/-- Python `s.startswith(p)`, decidably via the character lists. -/
def pyStartsWith (p s : String) : Bool := p.data.isPrefixOf s.data

/-- Contiguous-sublist test on lists (needle first). -/
def listSub (p : List Char) : List Char → Bool
  | [] => p.isEmpty
  | c :: rest => p.isPrefixOf (c :: rest) || listSub p rest

/-- Python `p in s` (substring test), via the character lists. -/
def pySubstr (p s : String) : Bool := listSub p.data s.data

/-- Python `s.lower()` (ASCII-faithful; all strings compared by the code
at these call sites are ASCII), via the character list. -/
def pyLower (s : String) : String := String.mk (s.data.map Char.toLower)

section BetSettlement

/-- `BET_TYPE_ID` (broadcast.py line 47): BullCFD 0, BearCFD 1,
Equal 2, NotEqual 3.  A bet-match row as read by `broadcast.parse` from
`ledger.other.get_pending_bet_matches`. -/
structure BetMatch where
  tx0Address : String
  tx1Address : String
  feedAddress : String
  tx0BetType : ℕ
  tx1BetType : ℕ
  forwardQuantity : ℤ
  backwardQuantity : ℤ
  leverage : ℤ
  initialValue : ℤ
  targetValue : ℚ
  deadline : ℤ
  feeFractionInt : ℤ
  deriving DecidableEq, Repr

/-- The `bet_match_resolutions` bindings plus the XCP credits emitted by
one iteration of the bet-match loop in `broadcast.parse`
(broadcast.py lines 339-554). -/
structure Resolution where
  settled : Option Bool
  bullCredit : Option ℤ
  bearCredit : Option ℤ
  winner : Option String
  escrowLessFee : Option ℤ
  fee : ℤ
  credits : List (String × ℤ)
  matchStatus : String
  deriving DecidableEq, Repr

/-- `bear_escrow` (broadcast.py lines 367-374): the backward quantity
when tx0 is the bull, else the forward quantity. -/
def bearEscrow (bm : BetMatch) : ℤ :=
  if bm.tx0BetType < bm.tx1BetType then bm.backwardQuantity else bm.forwardQuantity

/-- The exact value of `bear_escrow - (value - initial_value) * leverage
* config.UNIT` with `leverage = Fraction(bet_match["leverage"], 5040)`
(broadcast.py lines 376-379), in exact rational arithmetic. -/
def cfdBearCreditExact (bm : BetMatch) (value : ℚ) : ℚ :=
  (bearEscrow bm : ℚ) -
    (value - (bm.initialValue : ℚ)) * ((bm.leverage : ℚ) / 5040) * (UNIT : ℚ)

/-- `fee = int(fee_fraction * total_escrow)` where `fee_fraction` is
`bet_match["fee_fraction_int"] / config.UNIT` when `inmutable_fee_fraction`
is enabled, else the broadcast's own `fee_fraction_int / config.UNIT`
(broadcast.py lines 349-354). -/
def betFee (inmutableFeeFraction : Bool) (currentFfi : ℤ) (bm : BetMatch) : ℤ :=
  let ffi : ℤ := if inmutableFeeFraction then bm.feeFractionInt else currentFfi
  pyIntTrunc ((ffi : ℚ) / (UNIT : ℚ) * ((bm.forwardQuantity + bm.backwardQuantity : ℤ) : ℚ))

/-- One iteration of the bet-match loop of `broadcast.parse`
(broadcast.py lines 339-554), given the broadcast's (already unpacked and
clamped) `timestamp`, `value` and `fee_fraction_int`.  Returns `none`
when the match is left pending (no resolution row is inserted and no
credit is emitted). -/
def settleBetMatch (inmutableFeeFraction : Bool) (currentFfi : ℤ)
    (timestamp : ℤ) (value : ℚ) (bm : BetMatch) : Option Resolution :=
  let totalEscrow : ℤ := bm.forwardQuantity + bm.backwardQuantity
  let fee : ℤ := betFee inmutableFeeFraction currentFfi bm
  let escrowLessFee : ℤ := totalEscrow - fee
  let betMatchTypeId : ℕ := bm.tx0BetType + bm.tx1BetType
  if betMatchTypeId = 1 then
    -- Contract for difference (BullCFD + BearCFD).
    let bullAddress : String :=
      if bm.tx0BetType < bm.tx1BetType then bm.tx0Address else bm.tx1Address
    let bearAddress : String :=
      if bm.tx0BetType < bm.tx1BetType then bm.tx1Address else bm.tx0Address
    let bearCreditQ : ℚ := cfdBearCreditExact bm value
    let bullCreditQ : ℚ := (escrowLessFee : ℚ) - bearCreditQ
    let bearCredit : ℤ := roundHalfEven bearCreditQ
    let bullCredit : ℤ := roundHalfEven bullCreditQ
    if bullCredit ≥ escrowLessFee ∨ bullCredit ≤ 0 then
      if bullCredit ≥ escrowLessFee then
        some { settled := some false, bullCredit := some escrowLessFee,
               bearCredit := some 0, winner := none, escrowLessFee := none, fee,
               credits := [(bullAddress, escrowLessFee), (bm.feedAddress, fee)],
               matchStatus := "settled: liquidated for bull" }
      else
        some { settled := some false, bullCredit := some 0,
               bearCredit := some escrowLessFee, winner := none,
               escrowLessFee := none, fee,
               credits := [(bearAddress, escrowLessFee), (bm.feedAddress, fee)],
               matchStatus := "settled: liquidated for bear" }
    else if timestamp ≥ bm.deadline then
      some { settled := some true, bullCredit := some bullCredit,
             bearCredit := some bearCredit, winner := none,
             escrowLessFee := none, fee,
             credits := [(bullAddress, bullCredit), (bearAddress, bearCredit),
                         (bm.feedAddress, fee)],
             matchStatus := "settled" }
    else none
  else if betMatchTypeId = 5 ∧ timestamp ≥ bm.deadline then
    -- Equal / NotEqual.
    let equalAddress : String :=
      if bm.tx0BetType < bm.tx1BetType then bm.tx0Address else bm.tx1Address
    let notEqualAddress : String :=
      if bm.tx0BetType < bm.tx1BetType then bm.tx1Address else bm.tx0Address
    if value = bm.targetValue then
      some { settled := none, bullCredit := none, bearCredit := none,
             winner := some "Equal", escrowLessFee := some escrowLessFee, fee,
             credits := [(equalAddress, escrowLessFee), (bm.feedAddress, fee)],
             matchStatus := "settled: for equal" }
    else
      some { settled := none, bullCredit := none, bearCredit := none,
             winner := some "NotEqual", escrowLessFee := some escrowLessFee, fee,
             credits := [(notEqualAddress, escrowLessFee), (bm.feedAddress, fee)],
             matchStatus := "settled: for notequal" }
  else none

/-- The total quantity of XCP credited by a resolution. -/
def creditsSum (r : Resolution) : ℤ := (r.credits.map Prod.snd).sum

end BetSettlement

section Codec

/-- Big-endian bytes of `n`, width `w` (`struct` formats `>I`, `>Q`, `>B`). -/
def beBytes : ℕ → ℕ → List ℕ
  | 0, _ => []
  | w + 1, n => beBytes w (n / 256) ++ [n % 256]

/-- Big-endian integer value of a byte list. -/
def beNat (bs : List ℕ) : ℕ := bs.foldl (fun acc b => acc * 256 + b) 0

/-- Little-endian bytes of `n`, width `w` (multi-byte varint payloads). -/
def leBytes : ℕ → ℕ → List ℕ
  | 0, _ => []
  | w + 1, n => n % 256 :: leBytes w (n / 256)

/-- Little-endian integer value of a byte list. -/
def leNat (bs : List ℕ) : ℕ := bs.foldr (fun b acc => acc * 256 + b) 0

/-- `VarIntSerializer.serialize`: the Bitcoin variable-length integer
encoding (spec §4.2: "Bitcoin-style varint"). -/
def varintSer (n : ℕ) : List ℕ :=
  if n < 0xfd then [n]
  else if n ≤ 0xffff then 0xfd :: leBytes 2 n
  else if n ≤ 0xffffffff then 0xfe :: leBytes 4 n
  else 0xff :: leBytes 8 n

/-- `VarIntSerializer.deserialize` restricted to the decoded value, as
used by `broadcast.load_data_legacy`.  `none` models the truncation
error the deserializer raises when the buffer is too short (spec §4.2's
Bitcoin varint contract). -/
def varintDeser : List ℕ → Option ℕ
  | [] => none
  | b :: rest =>
    if b < 0xfd then some b
    else
      let k : ℕ := if b = 0xfd then 2 else if b = 0xfe then 4 else 8
      if rest.length < k then none else some (leNat (rest.take k))

/-- UTF-8 bytes of one character. -/
def utf8EncodeChar (c : Char) : List ℕ :=
  let n := c.toNat
  if n < 0x80 then [n]
  else if n < 0x800 then [0xC0 + n / 64, 0x80 + n % 64]
  else if n < 0x10000 then [0xE0 + n / 4096, 0x80 + (n / 64) % 64, 0x80 + n % 64]
  else [0xF0 + n / 262144, 0x80 + (n / 4096) % 64, 0x80 + (n / 64) % 64, 0x80 + n % 64]

/-- Python `text.encode("utf-8")` as a byte list. -/
def utf8Encode (s : String) : List ℕ :=
  s.data.foldr (fun c acc => utf8EncodeChar c ++ acc) []

/-- CBOR header-plus-argument for a major type and an unsigned argument
(minimal-length encoding, as produced by `cbor2.dumps`). -/
def cborHead (major : ℕ) (n : ℕ) : List ℕ :=
  let mb := major * 32
  if n < 24 then [mb + n]
  else if n < 2 ^ 8 then [mb + 24, n]
  else if n < 2 ^ 16 then (mb + 25) :: beBytes 2 n
  else if n < 2 ^ 32 then (mb + 26) :: beBytes 4 n
  else (mb + 27) :: beBytes 8 n

/-- CBOR encoding of an integer (major type 0 or 1). -/
def cborInt (z : ℤ) : List ℕ :=
  if 0 ≤ z then cborHead 0 z.toNat else cborHead 1 (-1 - z).toNat

/-- CBOR encoding of a text string (major type 3). -/
def cborStr (s : String) : List ℕ :=
  cborHead 3 (utf8Encode s).length ++ utf8Encode s

/-- CBOR encoding of a byte string (major type 2). -/
def cborBytes (bs : List ℕ) : List ℕ := cborHead 2 bs.length ++ bs

end Codec

/-- The protocol-flag table (spec §4.1), restricted to the features the
two engines consult, each taken at the block height of the transaction
being processed.  Scalar features (`dispenser_close_delay`,
`max_refills`) carry their height-selected value. -/
structure Protocol where
  maxFeeFraction : Bool
  noZeroExpiration : Bool
  optionsRequireMemo : Bool
  taprootSupport : Bool
  broadcastPackText : Bool
  broadcastInvalidCheck : Bool
  inmutableFeeFraction : Bool
  dispenserMustBeCreatedBySource : Bool
  dispenserOriginPermissionExtended : Bool
  oracleDispensers : Bool
  dispenserParsingValidation : Bool
  dispenserCloseDelay : ℤ
  maxRefills : ℤ
  addressOptionMaxValue : ℤ
  dustSize : ℤ

/-- Repository code outside the two source modules, abstracted as
functions (spec §6 lists these as external interfaces).  Theorems
quantify over this record, so they hold for every behaviour of the
external code; concrete instantiations are used for witnesses.
`packDouble` is the IEEE-754 big-endian byte encoding of a double
(`struct` format `d`); `cborLoads5` is `cbor2.loads` specialised to the
five-element broadcast array, `none` meaning any decoding exception. -/
structure Externals where
  checkContent : String → String → List String
  activeOptions : ℤ → ℤ → Bool
  resolveSubasset : String → String
  generateAssetId : String → ℤ
  generateAssetName : ℕ → String
  satoshirateToFiat : ℤ → ℚ
  contentToBytes : String → String → List ℕ
  cborLoads5 : List ℕ → Option (ℤ × Option ℕ × ℤ × String × List ℕ)
  packDouble : ℚ → List ℕ
  oldestTxBlock : String → ℤ → Option ℤ
  currentBlockIndex : ℤ

section BroadcastEngine

/-- A row of the `broadcasts` table as inserted by `broadcast.parse`.
`value`, `fee_fraction_int` and `text` are nullable columns. -/
structure BroadcastRow where
  timestamp : ℤ
  value : Option ℚ
  feeFractionInt : Option ℤ
  text : Option String
  locked : Bool
  status : String
  mimeType : String
  deriving DecidableEq, Repr

/-- `ledger.other.get_broadcasts_by_source(db, source, "valid",
order_by="ASC")[-1]`: the most recent broadcast of the source whose
status is `"valid"`.  The feed list is the source's broadcasts in
insertion order. -/
def lastValidBroadcast (feed : List BroadcastRow) : Option BroadcastRow :=
  (feed.filter (fun r => decide (r.status = "valid"))).getLast?

/-- Python `int(s)` as used by `parse_options_from_string`. -/
def pyParseInt (s : String) : Option ℤ := s.toInt?

/-- The `options_require_memo` section of `broadcast.validate`
(broadcast.py lines 106-113): `parse_options_from_string` followed by
`validate_address_options`, with each `OptionsError` message appended
as a problem.  `helpers.active_options` and
`config.ADDRESS_OPTION_MAX_VALUE` live outside the source modules and
come from `Externals`/`Protocol`. -/
def validateOptionsSection (p : Protocol) (E : Externals) (text : String) : List String :=
  let parts := text.splitOn " "
  if parts.length = 2 then
    match pyParseInt (parts.getLastD "") with
    | none => ["options not an integer"]
    | some o =>
      if o > MAX_INT ∨ o < 0 then ["options integer overflow"]
      else if o > p.addressOptionMaxValue then ["options out of range"]
      else if ¬ E.activeOptions p.addressOptionMaxValue o then ["options not possible"]
      else []
  else []

/-- `broadcast.validate` (broadcast.py lines 74-118), with the problem
strings accumulated in source order. -/
def broadcastValidate (p : Protocol) (E : Externals) (feed : List BroadcastRow)
    (source : String) (timestamp : ℤ) (value : ℚ) (feeFractionInt : ℤ)
    (text : String) (mimeType : String) : List String :=
  (if timestamp > MAX_INT ∨ value > (MAX_INT : ℚ) ∨ feeFractionInt > MAX_INT then
    ["integer overflow"] else [])
  ++ (if p.maxFeeFraction then
        if feeFractionInt ≥ UNIT then ["fee fraction greater than or equal to 1"] else []
      else
        if feeFractionInt > 4294967295 then ["fee fraction greater than 42.94967295"] else [])
  ++ (if timestamp < 0 then ["negative timestamp"] else [])
  ++ (if source = "" then ["null source address"] else [])
  ++ (match lastValidBroadcast feed with
      | some lb =>
        if lb.locked then ["locked feed"]
        else if timestamp ≤ lb.timestamp then
          ["feed timestamps not monotonically increasing"]
        else []
      | none => [])
  ++ (if ¬ p.noZeroExpiration ∧ text.length > 52 then ["text too long"] else [])
  ++ (if p.optionsRequireMemo ∧ text ≠ "" ∧ pyStartsWith "options" (pyLower text) then
        validateOptionsSection p E text else [])
  ++ (if p.taprootSupport then E.checkContent mimeType text else [])

/-- The unpacked fields handed from `broadcast.unpack` to the rest of
`broadcast.parse`.  `value`/`text` are `none` exactly when unpacking
failed (then `status` is the failure status). -/
structure BParseInput where
  timestamp : ℤ
  value : Option ℚ
  feeFractionInt : ℤ
  text : Option String
  mimeType : String
  status : String
  deriving DecidableEq, Repr

/-- The SQLite clamp `timestamp = min(timestamp, config.MAX_INT)`
(broadcast.py line 262), applied only on the unpack-valid path. -/
def bClampedTs (i : BParseInput) : ℤ := min i.timestamp MAX_INT

/-- The SQLite clamp `value = min(value, config.MAX_INT)` (broadcast.py
line 263); on this path `value` is a number, never `None`. -/
def bClampedV (i : BParseInput) : ℚ := min ((i.value).getD 0) (MAX_INT : ℚ)

/-- The validation problems computed by `broadcast.parse` line 265. -/
def broadcastProblems (p : Protocol) (E : Externals) (feed : List BroadcastRow)
    (source : String) (i : BParseInput) : List String :=
  broadcastValidate p E feed source (bClampedTs i) (bClampedV i)
    i.feeFractionInt ((i.text).getD "") i.mimeType

/-- The status `broadcast.parse` ends with after unpack and validation
(broadcast.py lines 258-267). -/
def broadcastStatusOf (p : Protocol) (E : Externals) (feed : List BroadcastRow)
    (source : String) (i : BParseInput) : String :=
  if i.status = "valid" then
    if broadcastProblems p E feed source i = [] then "valid"
    else "invalid: " ++ joinSemi (broadcastProblems p E feed source i)
  else i.status

/-- The `broadcasts` bindings of `broadcast.parse` (lines 269-290): the
lock rule clears timestamp, value, fee fraction and text and sets
`locked`; otherwise the (clamped, on the valid path) unpacked fields
are recorded. -/
def broadcastRowOf (p : Protocol) (E : Externals) (feed : List BroadcastRow)
    (source : String) (i : BParseInput) : BroadcastRow :=
  if pyLower ((i.text).getD "") = "lock" then
    { timestamp := 0, value := none, feeFractionInt := none, text := none,
      locked := true, status := broadcastStatusOf p E feed source i,
      mimeType := i.mimeType }
  else if i.status = "valid" then
    { timestamp := bClampedTs i, value := some (bClampedV i),
      feeFractionInt := some i.feeFractionInt, text := i.text, locked := false,
      status := broadcastStatusOf p E feed source i, mimeType := i.mimeType }
  else
    { timestamp := i.timestamp, value := i.value,
      feeFractionInt := some i.feeFractionInt, text := i.text, locked := false,
      status := broadcastStatusOf p E feed source i, mimeType := i.mimeType }

/-- The broadcast-row portion of `broadcast.parse` (broadcast.py lines
254-298): SQLite clamping, validation, the lock rule, and the insertion
into `broadcasts` (skipped when `"integer overflow"` occurs in the
status).  The address-options upsert and the bet sections touch other
tables; the bet-match loop is modelled by `settleBetMatch`. -/
def parseBroadcast (p : Protocol) (E : Externals) (feed : List BroadcastRow)
    (source : String) (i : BParseInput) : List BroadcastRow × String :=
  (if pySubstr "integer overflow" (broadcastStatusOf p E feed source i) then feed
   else feed ++ [broadcastRowOf p E feed source i],
   broadcastStatusOf p E feed source i)

end BroadcastEngine

section BroadcastCodec

/-- The exceptions of `broadcast.load_data_legacy`: `struct.error`,
the `assert len(text) == textlen` failure, and the varint truncation
error (which `broadcast.unpack` does not catch). -/
inductive LegacyExc where
  | structError
  | assertionError
  | varintTrunc
  deriving DecidableEq, Repr

/-- `broadcast.load_data_legacy` (broadcast.py lines 191-216) up to the
final UTF-8-decode-or-empty step (which affects no status and no field
observed by a claim; the text is kept as bytes).  Returns
`(timestamp, value bits, fee_fraction_int, text bytes)`; the value of
the `>d` field is carried as its raw IEEE-754 bit pattern, which no
claim interprets numerically. -/
def loadDataLegacy (packText : Bool) (msg : List ℕ) :
    Except LegacyExc (ℤ × ℕ × ℤ × List ℕ) :=
  if msg.length < 16 then .error .structError
  else
    let ts : ℤ := beNat (msg.take 4)
    let vb : ℕ := beNat ((msg.drop 4).take 8)
    let ffi : ℤ := beNat ((msg.drop 12).take 4)
    let raw := msg.drop 16
    if packText then
      match varintDeser raw with
      | none => .error .varintTrunc
      | some tl =>
        -- `rawtext[-textlen:]` (Python slicing clamps at the front).
        let text := if tl = 0 then [] else raw.drop (raw.length - tl)
        if text.length = tl then .ok (ts, vb, ffi, text) else .error .assertionError
    else
      let n := msg.length - 16
      let text :=
        if n ≤ 52 then
          -- Pascal string `{n}p`: first byte is the length, capped at n-1.
          match raw with
          | [] => []
          | len :: rest => rest.take len
        else raw
      .ok (ts, vb, ffi, text)

/-- The one exception `broadcast.unpack` can raise: the varint
truncation error from `VarIntSerializer.deserialize`, which is neither
`struct.error` nor `AssertionError` and so escapes the handler. -/
inductive UnpackExc where
  | varintTruncation
  deriving DecidableEq, Repr

/-- The result of `broadcast.unpack` (tuple form). -/
structure BUnpacked where
  timestamp : ℤ
  valueBits : Option ℕ
  feeFractionInt : ℤ
  mimeType : String
  textBytes : Option (List ℕ)
  status : String
  deriving DecidableEq, Repr

/-- The `try/except struct.error/AssertionError` wrapper of
`broadcast.unpack` (broadcast.py lines 219-240) around a legacy load. -/
def legacyToUnpacked : Except LegacyExc (ℤ × ℕ × ℤ × List ℕ) → Except UnpackExc BUnpacked
  | .ok (ts, vb, ffi, tb) =>
    .ok { timestamp := ts, valueBits := some vb, feeFractionInt := ffi,
          mimeType := "text/plain", textBytes := some tb, status := "valid" }
  | .error .structError =>
    .ok { timestamp := 0, valueBits := none, feeFractionInt := 0,
          mimeType := "", textBytes := none, status := "invalid: could not unpack" }
  | .error .assertionError =>
    .ok { timestamp := 0, valueBits := none, feeFractionInt := 0,
          mimeType := "", textBytes := none, status := "invalid: could not unpack text" }
  | .error .varintTrunc => .error .varintTruncation

/-- `broadcast.unpack` (broadcast.py lines 219-251).  In the taproot era
the CBOR load is attempted first; any of its exceptions trigger the
legacy fallback (`E.cborLoads5 = none` models them all). -/
def broadcastUnpack (p : Protocol) (E : Externals) (msg : List ℕ) :
    Except UnpackExc BUnpacked :=
  if p.taprootSupport then
    match E.cborLoads5 msg with
    | some (ts, vb, ffi, mime, tb) =>
      .ok { timestamp := ts, valueBits := vb, feeFractionInt := ffi,
            mimeType := if mime = "" then "text/plain" else mime,
            textBytes := some tb, status := "valid" }
    | none => legacyToUnpacked (loadDataLegacy packText msg)
  else legacyToUnpacked (loadDataLegacy packText msg)
where packText := p.broadcastPackText

/-- The errors of `broadcast.compose`: `ComposeError` from validation,
or `struct.error` from packing an out-of-range `>I` field. -/
inductive ComposeExc where
  | composeError (problems : List String)
  | structPackError
  deriving DecidableEq, Repr

/-- `broadcast.compose` (broadcast.py lines 121-181).  Text is encoded
to UTF-8 by the model's own encoder; the one-byte short type tag and
the four-byte legacy tag follow spec §4.2.  Note the legacy branches
pack the `timestamp` argument, not `broadcast_timestamp`. -/
def composeBroadcast (p : Protocol) (E : Externals) (feed : List BroadcastRow)
    (source : String) (timestamp : ℤ) (value : ℚ) (feeFraction : ℚ)
    (text : String) (mimeType : String) (skipValidation : Bool) :
    Except ComposeExc (String × List (String × ℤ) × List ℕ) :=
  let feeFractionInt : ℤ := pyIntTrunc (feeFraction * (100000000 : ℚ))
  let broadcastTimestamp : ℤ :=
    if timestamp = 0 then
      match lastValidBroadcast feed with
      | some lb => lb.timestamp + 1
      | none => timestamp
    else timestamp
  let problems := broadcastValidate p E feed source broadcastTimestamp value
    feeFractionInt text mimeType
  if problems ≠ [] ∧ ¬ skipValidation then .error (.composeError problems)
  else if p.taprootSupport then
    .ok (source, [],
      30 :: 0x85 :: (cborInt broadcastTimestamp ++ (0xfb :: E.packDouble value)
        ++ cborInt feeFractionInt ++ cborStr mimeType
        ++ cborBytes (E.contentToBytes text
            (if mimeType = "" then "text/plain" else mimeType))))
  else if ¬ (0 ≤ timestamp ∧ timestamp < 2 ^ 32 ∧
             0 ≤ feeFractionInt ∧ feeFractionInt < 2 ^ 32) then
    .error .structPackError
  else
    let fixedPart := beBytes 4 timestamp.toNat ++ E.packDouble value
      ++ beBytes 4 feeFractionInt.toNat
    let bs := utf8Encode text
    let body :=
      if p.broadcastPackText then
        fixedPart ++ varintSer bs.length ++ bs
      else if text.length ≤ 52 then
        -- `{len(text)+1}p`: one length byte plus len(text) data bytes,
        -- zero-padded, the data truncated to the field size.
        fixedPart ++ [min bs.length text.length] ++ bs.take text.length
          ++ List.replicate (text.length - min bs.length text.length) 0
      else
        -- `{len(text)}s`: truncated or zero-padded to len(text) bytes.
        fixedPart ++ bs.take text.length ++ List.replicate (text.length - bs.length) 0
    .ok (source, [], beBytes 4 30 ++ body)

end BroadcastCodec

section DispenserEngine

/-- `STATUS_OPEN = 0`, `STATUS_OPEN_EMPTY_ADDRESS = 1`,
`STATUS_CLOSED = 10`, `STATUS_CLOSING = 11` (dispenser.py lines 31-36).
A row of the `dispensers` table. -/
structure DispenserRow where
  txHash : String
  source : String
  asset : String
  giveQuantity : ℤ
  escrowQuantity : ℤ
  satoshirate : ℤ
  giveRemaining : ℤ
  status : ℕ
  oracleAddress : Option String
  origin : String
  dispenseCount : ℕ
  lastStatusTxHash : Option String
  lastStatusTxSource : Option String
  closeBlockIndex : Option ℤ
  deriving DecidableEq, Repr

/-- A row of the `balances` table.  A row persists once created, even
at quantity 0. -/
structure BalanceRow where
  address : String
  asset : String
  quantity : ℤ
  deriving DecidableEq, Repr

/-- The ledger tables the dispenser engine reads and writes, in row
insertion order, plus the oracle-feed view
(`get_oracle_last_price` yields `(last_price, last_fee)`) and the
per-dispenser refill counts (`get_refilling_count`). -/
structure DState where
  dispensers : List DispenserRow
  balances : List BalanceRow
  oraclePrices : List (String × ℚ × ℚ)
  refillCounts : List (String × ℕ)
  deriving DecidableEq, Repr

/-- `ledger.markets.get_dispensers` with the `address`, `asset`,
`status_in` and optional `origin` filters used by the two modules. -/
def getDispensers (st : DState) (addr asset : String) (statuses : List ℕ)
    (origin : Option String) : List DispenserRow :=
  st.dispensers.filter fun r =>
    decide (r.source = addr) && decide (r.asset = asset) && statuses.contains r.status &&
      (match origin with
       | none => true
       | some o => decide (r.origin = o))

/-- `ledger.balances.get_balance(db, addr, asset, return_list=True)`. -/
def balanceRows (st : DState) (addr asset : String) : List BalanceRow :=
  st.balances.filter fun b => decide (b.address = addr) && decide (b.asset = asset)

/-- `ledger.balances.get_balance(db, addr, asset)` (scalar form, 0 when
no row exists). -/
def getBalance (st : DState) (addr asset : String) : ℤ :=
  match balanceRows st addr asset with
  | [] => 0
  | b :: _ => b.quantity

/-- `ledger.balances.get_balances_count(db, addr)[0]["cnt"]`: the
number of balance rows at the address, regardless of quantity. -/
def balanceRowsCount (st : DState) (addr : String) : ℕ :=
  (st.balances.filter fun b => decide (b.address = addr)).length

/-- `ledger.balances.get_address_assets(db, addr)`: the distinct assets
having a balance row at the address. -/
def addressAssets (st : DState) (addr : String) : List String :=
  ((st.balances.filter fun b => decide (b.address = addr)).map (fun b => b.asset)).eraseDups

/-- `ledger.other.get_oracle_last_price`: `(last_price, last_fee)` of
the oracle's most recent valid priced broadcast, `none` when it has
never broadcast. -/
def oracleLastPrice (st : DState) (oracle : String) : Option (ℚ × ℚ) :=
  (st.oraclePrices.find? fun e => decide (e.1 = oracle)).map (fun e => e.2)

/-- `ledger.markets.get_refilling_count` for a dispenser tx hash. -/
def refillingCount (st : DState) (txHash : String) : ℕ :=
  (((st.refillCounts.find? fun e => decide (e.1 = txHash)).map fun e => e.2)).getD 0

/-- `ledger.markets.get_dispensers_count(db, source=addr, status=s,
origin=o)`. -/
def getDispensersCount (st : DState) (addr : String) (status : ℕ) (origin : String) : ℕ :=
  (st.dispensers.filter fun r =>
    decide (r.source = addr) && decide (r.status = status) && decide (r.origin = origin)).length

/-- Update the quantity of the first (address, asset) balance row, or
append a fresh row when none exists (how a SQL upsert leaves the
table). -/
def setBalance : List BalanceRow → String → String → ℤ → List BalanceRow
  | [], addr, asset, q => [{ address := addr, asset := asset, quantity := q }]
  | b :: rest, addr, asset, q =>
    if b.address = addr ∧ b.asset = asset then { b with quantity := q } :: rest
    else b :: setBalance rest addr asset q

/-- Modelled from the spec (§4.3): `ledger.events.credit` adds the
quantity to the `(address, asset)` balance. -/
def creditBal (st : DState) (addr asset : String) (qty : ℤ) : DState :=
  { st with balances := setBalance st.balances addr asset (getBalance st addr asset + qty) }

/-- Modelled from the spec (§4.3): `ledger.events.debit` subtracts the
quantity and fails with `DebitError` when the result would be
negative. -/
def debitBal (st : DState) (addr asset : String) (qty : ℤ) : Except Unit DState :=
  if getBalance st addr asset < qty then .error ()
  else .ok { st with balances := setBalance st.balances addr asset (getBalance st addr asset - qty) }

/-- `dispenser.validate` (dispenser.py lines 50-234), with problems in
source order.  Returns `(asset_id, problems)`; the code's
`(asset_id, None)` is `(some id, [])` and `(None, problems)` is
`(none, problems)`. -/
def dispenserValidate (p : Protocol) (E : Externals) (st : DState)
    (source asset0 : String) (giveQuantity escrowQuantity mainchainrate : ℤ)
    (dStatus0 : ℕ) (openAddress0 : Option String) (blockIndex : ℤ)
    (oracleAddress : Option String) : Option ℤ × List String :=
  if asset0 = "BTC" then (none, ["cannot dispense BTC"])
  else
    let asset := E.resolveSubasset asset0
    let probsStatus : List String :=
      if dStatus0 = 0 ∨ dStatus0 = 1 then
        (if giveQuantity ≤ 0 then ["give_quantity must be positive"] else [])
        ++ (if mainchainrate ≤ 0 then ["mainchainrate must be positive"] else [])
        ++ (if escrowQuantity < giveQuantity then
              ["escrow_quantity must be greater or equal than give_quantity"] else [])
      else if dStatus0 ≠ 10 then ["invalid status " ++ toString dStatus0] else []
    let available := balanceRows st source asset
    let mainAndId : List String × Option ℤ :=
      match available with
      | [] => (["address doesn't have the asset " ++ asset], none)
      | b :: _ =>
        if b.quantity < escrowQuantity then
          (["address doesn't have enough balance of " ++ asset ++ " (" ++
            toString b.quantity ++ " < " ++ toString escrowQuantity ++ ")"], none)
        else if p.dispenserMustBeCreatedBySource ∧ openAddress0.isSome ∧
            openAddress0 ≠ some source ∧ dStatus0 ≠ 10 ∧
            (getDispensers st ((if dStatus0 = 1 then openAddress0 else some source).getD "")
              asset [0, 11] none).length = 0 then
          (["dispenser must be created by source"], none)
        else
          -- dispenser.py lines 107-211
          let flip1 : Bool := dStatus0 = 1 ∧ (openAddress0 = none ∨ openAddress0 = some "")
          let oa1 : Option String := if flip1 then some source else openAddress0
          let ds1 : ℕ := if flip1 then 0 else dStatus0
          let ds2 : ℕ :=
            if p.dispenserMustBeCreatedBySource ∧ ds1 = 1 ∧ oa1 = some source then 0 else ds1
          let queryAddress : String := if ds2 = 1 then oa1.getD source else source
          let openDispensers : List DispenserRow :=
            if p.dispenserOriginPermissionExtended ∧ ds2 = 10 ∧ oa1.isSome ∧
                oa1 ≠ some "" ∧ oa1 ≠ some source then
              getDispensers st (oa1.getD "") asset [0, 11] (some source)
            else getDispensers st queryAddress asset [0, 11] none
          let headClosing : Bool :=
            match openDispensers with
            | [] => false
            | r :: _ => decide (r.status = 11)
          if headClosing then
            (["address has already a dispenser about to close, no action can be taken until it closes"],
             none)
          else
            let refillProbs : List String :=
              if ds2 = 0 ∨ ds2 = 1 then
                match openDispensers with
                | [] => []
                | d0 :: _ =>
                  let rc : ℕ := if p.maxRefills > 0 then refillingCount st d0.txHash else 0
                  if d0.satoshirate = mainchainrate ∧ d0.giveQuantity = giveQuantity then
                    if (rc : ℤ) ≥ p.maxRefills ∧ p.maxRefills > 0 then
                      ["the dispenser reached its maximum refilling"]
                    else []
                  else
                    (if d0.satoshirate ≠ mainchainrate then
                      ["address has a dispenser already opened for asset " ++ asset ++
                       " with a different mainchainrate"] else [])
                    ++ (if d0.giveQuantity ≠ giveQuantity then
                      ["address has a dispenser already opened for asset " ++ asset ++
                       " with a different give_quantity"] else [])
              else if ds2 = 10 then
                if openDispensers = [] then
                  ["address doesn't have an open dispenser for asset " ++ asset]
                else []
              else []
            let emptyProbs : List String :=
              if ds2 = 1 then
                if ¬ (p.dispenserOriginPermissionExtended ∧ openDispensers ≠ [] ∧
                    (openDispensers.head?.map fun r => r.origin) = some source) then
                  let cnt := getDispensersCount st queryAddress 10 source
                  if ¬ (p.dispenserOriginPermissionExtended ∧ cnt > 0) then
                    (if balanceRowsCount st queryAddress > 0 then
                      ["cannot open on another address if it has any balance history"] else [])
                    ++ (if p.dispenserOriginPermissionExtended then
                          match E.oldestTxBlock queryAddress E.currentBlockIndex with
                          | some b2 =>
                            if b2 > 0 ∧ blockIndex > b2 then
                              ["cannot open on another address if it has any confirmed bitcoin txs"]
                            else []
                          | none => []
                        else [])
                  else []
                else []
              else []
            if probsStatus ++ refillProbs ++ emptyProbs = [] then
              let assetId := E.generateAssetId asset
              if assetId = 0 then (refillProbs ++ emptyProbs ++ ["cannot dispense " ++ asset], none)
              else (refillProbs ++ emptyProbs, some assetId)
            else (refillProbs ++ emptyProbs, none)
    let oracleProbs : List String :=
      if oracleAddress.isSome ∧ p.oracleDispensers then
        match oracleLastPrice st (oracleAddress.getD "") with
        | none => ["The oracle address " ++ oracleAddress.getD "" ++
                   " has not broadcasted any price yet"]
        | some _ => []
      else []
    let ovfProbs : List String :=
      if giveQuantity > MAX_INT ∨ escrowQuantity > MAX_INT ∨ mainchainrate > MAX_INT then
        ["integer overflow"] else []
    let problems := probsStatus ++ mainAndId.1 ++ oracleProbs ++ ovfProbs
    if problems = [] then (mainAndId.2, []) else (none, problems)

/-- `dispenser.calculate_oracle_fee` (dispenser.py lines 296-313), in
exact rationals.  An absent oracle price is modelled as `(0, 0)`: every
call site follows a validation requiring a broadcast price.  (With
`give_quantity = 0` or `last_price = 0` Python raises
`ZeroDivisionError`; `ℚ` division by zero yields 0 — no call used in a
theorem hits those.) -/
def calculateOracleFee (E : Externals) (st : DState)
    (escrowQuantity giveQuantity mainchainrate : ℤ) (oracle : String) : ℤ :=
  let pf : ℚ × ℚ := (oracleLastPrice st oracle).getD (0, 0)
  let lastFeeMultiplier : ℚ := pf.2 / (UNIT : ℚ)
  let oracleMainchainrateBtc : ℚ := E.satoshirateToFiat mainchainrate / pf.1
  let remaining : ℤ := ⌊(escrowQuantity : ℚ) / (giveQuantity : ℚ)⌋
  pyIntTrunc (oracleMainchainrateBtc * (remaining : ℚ) * lastFeeMultiplier * (UNIT : ℚ))

/-- A transaction as seen by `parse`. -/
structure Tx where
  txIndex : ℕ
  txHash : String
  blockIndex : ℤ
  source : String
  destination : Option String
  btcAmount : ℤ
  deriving DecidableEq, Repr

/-- The oracle-fee gate of `dispenser.parse` (dispenser.py lines
415-429 and 530-547): `true` means the fee is due and the transaction
does not carry it (status becomes `"invalid: insufficient or
non-existent oracle fee"`). -/
def oracleFeeGateBad (p : Protocol) (E : Externals) (st : DState) (tx : Tx)
    (escrowQuantity giveQuantity mainchainrate : ℤ) (oracle : Option String) : Bool :=
  match oracle with
  | none => false
  | some oa =>
    if p.oracleDispensers then
      let fee := calculateOracleFee E st escrowQuantity giveQuantity mainchainrate oa
      if fee ≥ p.dustSize then
        decide (tx.destination ≠ some oa) || decide (tx.btcAmount < fee)
      else false
    else false

/-- The result of `dispenser.unpack`: either the decoded fields or the
all-`None` failure (status `"invalid: could not unpack"`). -/
inductive DUnpacked where
  | ok (asset : String) (giveQuantity escrowQuantity mainchainrate : ℤ)
      (dStatus : ℕ) (actionAddress : Option String) (oracleAddress : Option String)
  | failed
  deriving DecidableEq, Repr

/-- Modelled from the spec (§6): legacy address packing is 21 bytes,
one version byte plus a 20-byte hash160; `unpack_legacy` fails
(`UnpackError`) on any other length.  The rendering is an injective
presentation of the 21 bytes. -/
def addressUnpackLegacy (bs : List ℕ) : Option String :=
  if bs.length = 21 then some (String.intercalate "-" (bs.map toString)) else none

/-- `dispenser.unpack` (dispenser.py lines 316-367).
`ledger.issuances.generate_asset_name` lives outside the source modules
and is total per spec §3/§6 (the `AssetId ⇄ AssetName` bijection). -/
def dispenserUnpack (p : Protocol) (E : Externals) (msg : List ℕ) : DUnpacked :=
  if msg.length < 33 then .failed
  else
    let assetId := beNat (msg.take 8)
    let give : ℤ := beNat ((msg.drop 8).take 8)
    let escrow : ℤ := beNat ((msg.drop 16).take 8)
    let rate : ℤ := beNat ((msg.drop 24).take 8)
    let dStatus := beNat ((msg.drop 32).take 1)
    let asset := E.generateAssetName assetId
    if dStatus = 1 ∨ (p.dispenserOriginPermissionExtended ∧ dStatus = 10 ∧ msg.length > 33) then
      match addressUnpackLegacy ((msg.drop 33).take 21) with
      | none => .failed
      | some action =>
        if msg.length > 54 then
          match addressUnpackLegacy ((msg.drop 54).take 21) with
          | none => .failed
          | some oracle => .ok asset give escrow rate dStatus (some action) (some oracle)
        else .ok asset give escrow rate dStatus (some action) none
    else
      if msg.length > 33 then
        match addressUnpackLegacy ((msg.drop 33).take 21) with
        | none => .failed
        | some oracle => .ok asset give escrow rate dStatus none (some oracle)
      else .ok asset give escrow rate dStatus none none

/-- The filter of `get_dispensers(address, asset, status=STATUS_OPEN)`. -/
def openDispenserPred (addr asset : String) (r : DispenserRow) : Bool :=
  decide (r.source = addr) && decide (r.asset = asset) && decide (r.status = 0)

/-- The filter of the close branch's `get_dispensers` call, with the
optional origin restriction of a cross-address close. -/
def closeDispenserPred (addr asset : String) (origin : Option String)
    (r : DispenserRow) : Bool :=
  openDispenserPred addr asset r &&
    (match origin with
     | none => true
     | some o => decide (r.origin = o))

/-- `UPDATE ... WHERE rowid = <first match>`: rewrite the first row the
filter selects. -/
def updateFirstDisp (pred : DispenserRow → Bool) (f : DispenserRow → DispenserRow) :
    List DispenserRow → List DispenserRow
  | [] => []
  | r :: rest => if pred r then f r :: rest else r :: updateFirstDisp pred f rest

/-- The parse-time empty-address test of `dispenser.parse`
(dispenser.py lines 434-446): the address counts as empty unless some
asset there has a *positive* balance — a zero-quantity row does not
disqualify it. -/
def isEmptyAddress (st : DState) (addr : String) : Bool :=
  (addressAssets st addr).all fun a => decide (getBalance st addr a ≤ 0)

/-- The `OPEN_DISPENSER` insertion of `dispenser.parse` (dispenser.py
lines 491-511). -/
def insertDispenser (st : DState) (tx : Tx) (actionAddress asset : String)
    (give escrow rate : ℤ) (oracle : Option String) : DState :=
  { st with dispensers := st.dispensers ++
      [{ txHash := tx.txHash, source := actionAddress, asset := asset,
         giveQuantity := give, escrowQuantity := escrow, satoshirate := rate,
         giveRemaining := escrow, status := 0, oracleAddress := oracle,
         origin := tx.source, dispenseCount := 0, lastStatusTxHash := none,
         lastStatusTxSource := none, closeBlockIndex := none }] }

/-- `dispenser.parse` (dispenser.py lines 370-695): returns the new
ledger state and the final status string.  (The `dispenser_refills`
event row and log lines carry no ledger state and are omitted.) -/
def dispenserParse (p : Protocol) (E : Externals) (st : DState) (tx : Tx)
    (msg : List ℕ) : DState × String :=
  match dispenserUnpack p E msg with
  | .failed => (st, "invalid: could not unpack")
  | .ok asset give escrow rate dStatus action? oracle? =>
    let actionAddress := action?.getD tx.source
    let problems : List String :=
      if p.dispenserParsingValidation then
        (dispenserValidate p E st tx.source asset give escrow rate dStatus
          (if dStatus = 1 ∨ dStatus = 10 then some actionAddress else none)
          tx.blockIndex oracle?).2
      else []
    if problems ≠ [] then (st, "invalid: " ++ joinSemi problems)
    else if dStatus = 0 ∨ dStatus = 1 then
      match st.dispensers.filter (openDispenserPred actionAddress asset) with
      | [] =>
        if oracleFeeGateBad p E st tx escrow give rate oracle? then
          (st, "invalid: insufficient or non-existent oracle fee")
        else if dStatus = 1 then
          if isEmptyAddress st actionAddress then
            -- The three-leg empty-address move; only the first debit can
            -- fail, and it fails before any write.
            match debitBal st tx.source asset escrow with
            | .error _ => (st, "invalid: insufficient funds")
            | .ok s1 =>
              let s2 := creditBal s1 actionAddress asset escrow
              match debitBal s2 actionAddress asset escrow with
              | .error _ => (s2, "invalid: insufficient funds")
              | .ok s3 => (insertDispenser s3 tx actionAddress asset give escrow rate oracle?, "valid")
          else (st, "invalid: address not empty")
        else
          match debitBal st tx.source asset escrow with
          | .error _ => (st, "invalid: insufficient funds")
          | .ok s1 => (insertDispenser s1 tx actionAddress asset give escrow rate oracle?, "valid")
      | [d0] =>
        if d0.satoshirate = rate ∧ d0.giveQuantity = give then
          if tx.source = actionAddress ∨
              (p.dispenserOriginPermissionExtended ∧ tx.source = d0.origin) then
            if oracleFeeGateBad p E st tx escrow give rate oracle? then
              (st, "invalid: insufficient or non-existent oracle fee")
            else
              match debitBal st tx.source asset escrow with
              | .error _ => (st, "insufficient funds")
              | .ok s1 =>
                let upd : DispenserRow → DispenserRow := fun r =>
                  { r with giveRemaining := r.giveRemaining + escrow, dispenseCount := 0 }
                let ds := updateFirstDisp (openDispenserPred actionAddress asset) upd s1.dispensers
                ({ s1 with dispensers := ds }, "valid")
          else (st, "invalid: can only refill dispenser from source or origin")
        else (st, "can only have one open dispenser per asset per address")
      | _ => (st, "can only have one open dispenser per asset per address")
    else if dStatus = 10 then
      let closeFromAnother : Bool :=
        p.dispenserOriginPermissionExtended ∧ actionAddress ≠ "" ∧ actionAddress ≠ tx.source
      let pred := if closeFromAnother then
          closeDispenserPred actionAddress asset (some tx.source)
        else closeDispenserPred tx.source asset none
      match st.dispensers.filter pred with
      | [d0] =>
        if p.dispenserCloseDelay = 0 then
          let s1 := creditBal st tx.source asset d0.giveRemaining
          let ds := updateFirstDisp pred
            (fun r => { r with giveRemaining := 0, status := 10 }) s1.dispensers
          ({ s1 with dispensers := ds }, "valid")
        else
          let upd : DispenserRow → DispenserRow := fun r =>
            { r with status := 11, lastStatusTxHash := some tx.txHash, lastStatusTxSource := some tx.source, closeBlockIndex := some (tx.blockIndex + p.dispenserCloseDelay) }
          let ds := updateFirstDisp pred upd st.dispensers
          ({ st with dispensers := ds }, "valid")
      | _ => (st, "dispenser inexistent")
    else (st, "invalid: status must be one of OPEN or CLOSE")

/-- Modelled from the spec (§4.6): the Dispensable Cache holds every
address that hosts or has hosted a dispenser. -/
def couldBeDispensable (st : DState) (addr : String) : Bool :=
  st.dispensers.any fun r => decide (r.source = addr)

/-- `get_dispensers(address=destination, status_in=[0, 11])`. -/
def openClosingAt (st : DState) (addr : String) : List DispenserRow :=
  st.dispensers.filter fun r => decide (r.source = addr) && [0, 11].contains r.status

/-- The dispenser loop of `dispenser.is_dispensable` (dispenser.py
lines 719-735).  Note the `return False` on a zero fiatrate or a zero
oracle price aborts the whole scan. -/
def dispensableScan (E : Externals) (st : DState) (amount : ℤ) :
    List DispenserRow → Bool
  | [] => false
  | r :: rest =>
    match r.oracleAddress with
    | some oa =>
      let lastPrice : ℚ := ((oracleLastPrice st oa).map fun e => e.1).getD 0
      let fiatrate : ℚ := E.satoshirateToFiat r.satoshirate
      if fiatrate = 0 ∨ lastPrice = 0 then false
      else if (amount : ℚ) ≥ fiatrate / lastPrice then true
      else dispensableScan E st amount rest
    | none =>
      if amount ≥ r.satoshirate then true else dispensableScan E st amount rest

/-- `dispenser.is_dispensable` (dispenser.py lines 710-735). -/
def isDispensable (E : Externals) (st : DState) (destination : Option String)
    (amount : ℤ) : Bool :=
  match destination with
  | none => false
  | some d =>
    if ¬ couldBeDispensable st d then false
    else dispensableScan E st amount (openClosingAt st d)

end DispenserEngine

section DerivedDefs

/-- The rows of a feed whose status is `"valid"` (the feed in the sense
of the spec's glossary). -/
def validRows (feed : List BroadcastRow) : List BroadcastRow :=
  feed.filter fun r => decide (r.status = "valid")

/-- The timestamps of the valid broadcasts of a feed, in insertion
order. -/
def validTimestamps (feed : List BroadcastRow) : List ℤ :=
  (validRows feed).map fun r => r.timestamp

/-- The timestamps of the valid *unlocked* broadcasts of a feed. -/
def validUnlockedTs (feed : List BroadcastRow) : List ℤ :=
  ((validRows feed).filter fun r => !r.locked).map fun r => r.timestamp

/-- Strict monotonicity of a timestamp list. -/
def strictlyIncreasing (l : List ℤ) : Prop := List.Chain' (· < ·) l

/-- Executable check for `strictlyIncreasing`. -/
def strictlyIncreasingB : List ℤ → Bool
  | [] => true
  | [_] => true
  | a :: b :: rest => decide (a < b) && strictlyIncreasingB (b :: rest)

instance (l : List ℤ) : Decidable (strictlyIncreasing l) :=
  decidable_of_iff (strictlyIncreasingB l = true) (by
    unfold strictlyIncreasing
    induction l with
    | nil => simp [strictlyIncreasingB]
    | cons a t ih =>
      cases t with
      | nil => simp [strictlyIncreasingB]
      | cons b t2 => simp [strictlyIncreasingB, List.chain'_cons, ← ih])

/-- The feed invariant `broadcast.parse` actually maintains: the valid
unlocked timestamps are strictly increasing, and a valid locked row
(a recorded lock) can only be the final valid row. -/
def feedInvariant (feed : List BroadcastRow) : Prop :=
  strictlyIncreasing (validUnlockedTs feed) ∧
    ∀ r ∈ (validRows feed).dropLast, r.locked = false

instance (feed : List BroadcastRow) : Decidable (feedInvariant feed) :=
  inferInstanceAs (Decidable (_ ∧ _))

/-- Two dispenser rows do not violate the at-most-one-open rule: they
are not both Open with the same (address, asset) key. -/
def openKeyDistinct (a b : DispenserRow) : Prop :=
  ¬ (a.status = 0 ∧ b.status = 0 ∧ a.source = b.source ∧ a.asset = b.asset)

instance (a b : DispenserRow) : Decidable (openKeyDistinct a b) :=
  inferInstanceAs (Decidable (¬ _))

/-- Spec §8, invariant 4: for each `(address, asset)`, at most one
dispenser with status Open. -/
def atMostOneOpen (st : DState) : Prop :=
  List.Pairwise openKeyDistinct st.dispensers

instance (st : DState) : Decidable (atMostOneOpen st) :=
  inferInstanceAs (Decidable (List.Pairwise _ _))

/-- Refinement definition following the words of claim C8 and spec
§4.5: a dispenser "fires" for a payment of `amount` iff, with no
oracle, `amount ≥ satoshirate`; with an oracle,
`amount ≥ satoshirate_to_fiat(satoshirate) / last_price`, a zero
`last_price` or fiatrate never firing. -/
def specFires (E : Externals) (st : DState) (amount : ℤ) (r : DispenserRow) : Bool :=
  match r.oracleAddress with
  | none => decide (amount ≥ r.satoshirate)
  | some oa =>
    let lastPrice : ℚ := ((oracleLastPrice st oa).map fun e => e.1).getD 0
    let fiatrate : ℚ := E.satoshirateToFiat r.satoshirate
    if fiatrate = 0 ∨ lastPrice = 0 then false
    else decide ((amount : ℚ) ≥ fiatrate / lastPrice)

/-- An oracle dispenser whose fiatrate or oracle price is zero: in the
code, scanning such a dispenser aborts `is_dispensable` for the whole
address. -/
def specBlocks (E : Externals) (st : DState) (r : DispenserRow) : Bool :=
  match r.oracleAddress with
  | none => false
  | some oa =>
    decide (E.satoshirateToFiat r.satoshirate = 0) ||
      decide (((oracleLastPrice st oa).map fun e => e.1).getD 0 = 0)

/-- The timestamp field obtained by legacy-decoding a payload (used to
state what a composed payload encodes). -/
def legacyDecodedTimestamp (packText : Bool) (msg : List ℕ) : Option ℤ :=
  (loadDataLegacy packText msg).toOption.map fun x => x.1

/-- Bridge from `broadcast.unpack`'s result to the fields `parse` works
on: `decodeDouble` interprets the carried IEEE-754 bits as a number and
`decodeText` is the UTF-8-decode-or-empty step of `load_data_legacy` /
`bytes_to_content` (their values affect no status claim). -/
def buToInput (decodeDouble : ℕ → ℚ) (decodeText : List ℕ → String)
    (bu : BUnpacked) : BParseInput :=
  { timestamp := bu.timestamp, value := bu.valueBits.map decodeDouble,
    feeFractionInt := bu.feeFractionInt, text := bu.textBytes.map decodeText,
    mimeType := bu.mimeType, status := bu.status }

/-- `broadcast.parse` run from the raw payload: unpack then the row
transition. -/
def parseBroadcastFromMsg (p : Protocol) (E : Externals) (feed : List BroadcastRow)
    (source : String) (decodeDouble : ℕ → ℚ) (decodeText : List ℕ → String)
    (msg : List ℕ) : Except UnpackExc (List BroadcastRow × String) :=
  (broadcastUnpack p E msg).map fun bu =>
    parseBroadcast p E feed source (buToInput decodeDouble decodeText bu)

end DerivedDefs

section Fixtures

/-- A concrete instantiation of the external functions, used by
witnesses and counterexamples. -/
def fixE : Externals :=
  { checkContent := fun _ _ => [], activeOptions := fun _ _ => true,
    resolveSubasset := fun a => a, generateAssetId := fun _ => 1,
    generateAssetName := fun n => "A" ++ toString n,
    satoshirateToFiat := fun r => (r : ℚ),
    contentToBytes := fun t _ => utf8Encode t, cborLoads5 := fun _ => none,
    packDouble := fun _ => List.replicate 8 0, oldestTxBlock := fun _ _ => none,
    currentBlockIndex := 800000 }

/-- A flag assignment of the legacy (pre-taproot, pack-text) era. -/
def fixP : Protocol :=
  { maxFeeFraction := true, noZeroExpiration := true, optionsRequireMemo := true,
    taprootSupport := false, broadcastPackText := true, broadcastInvalidCheck := true,
    inmutableFeeFraction := true, dispenserMustBeCreatedBySource := false,
    dispenserOriginPermissionExtended := false, oracleDispensers := false,
    dispenserParsingValidation := false, dispenserCloseDelay := 0, maxRefills := 0,
    addressOptionMaxValue := 3, dustSize := 546 }

/-- The same flags with `taproot_support` active. -/
def fixPT : Protocol := { fixP with taprootSupport := true }

/-- The same flags with `dispenser_parsing_validation` active. -/
def fixPV : Protocol := { fixP with dispenserParsingValidation := true }

/-- A valid unlocked broadcast row at timestamp 100. -/
def fixFeedRow : BroadcastRow :=
  { timestamp := 100, value := some 50, feeFractionInt := some 0,
    text := some "hello", locked := false, status := "valid",
    mimeType := "text/plain" }

/-- A feed holding one valid unlocked broadcast at timestamp 100. -/
def fixFeed : List BroadcastRow := [fixFeedRow]

/-- C4's parse input: a valid broadcast whose text is "LOCK", at
timestamp 150. -/
def fixLockInput : BParseInput :=
  { timestamp := 150, value := some 1, feeFractionInt := 0, text := some "LOCK",
    mimeType := "", status := "valid" }

/-- The row the lock broadcast is recorded as: timestamp 0, cleared
fields, locked, status `"valid"`. -/
def fixLockRow : BroadcastRow :=
  { timestamp := 0, value := none, feeFractionInt := none, text := none,
    locked := true, status := "valid", mimeType := "" }

/-- C10's parse input: a lock broadcast whose `fee_fraction_int`
overflows `MAX_INT` (reachable through the CBOR decoder, whose integers
are unbounded; line 262 clamps only timestamp and value). -/
def fixOverflowLockInput : BParseInput :=
  { timestamp := 5, value := some 1, feeFractionInt := 2 ^ 63, text := some "lock",
    mimeType := "", status := "valid" }

/-- The row a lock broadcast is recorded as (broadcast.py lines
270-290): cleared fields, `locked`, and whatever status parse
computed. -/
def lockRowOf (p : Protocol) (E : Externals) (feed : List BroadcastRow)
    (source : String) (i : BParseInput) : BroadcastRow :=
  { timestamp := 0, value := none, feeFractionInt := none, text := none,
    locked := true, status := broadcastStatusOf p E feed source i,
    mimeType := i.mimeType }

/-- C1's CFD bet match: bull = tx0, bear escrow 300001, leverage 5040/5040,
initial value 10, zero fee. -/
def fixBM : BetMatch :=
  { tx0Address := "bull", tx1Address := "bear", feedAddress := "feed",
    tx0BetType := 0, tx1BetType := 1, forwardQuantity := 300000,
    backwardQuantity := 300001, leverage := 5040, initialValue := 10,
    targetValue := 0, deadline := 1000, feeFractionInt := 0 }

/-- An Equal/NotEqual bet match used as a settlement witness. -/
def fixBMEq : BetMatch :=
  { tx0Address := "eq", tx1Address := "neq", feedAddress := "feed",
    tx0BetType := 2, tx1BetType := 3, forwardQuantity := 50,
    backwardQuantity := 50, leverage := 0, initialValue := 0,
    targetValue := 42, deadline := 1000, feeFractionInt := 0 }

/-- The 21-zero-byte action address of the dispenser fixtures. -/
def fixTarget : String := (addressUnpackLegacy (List.replicate 21 0)).getD ""

/-- A transaction envelope for the dispenser fixtures. -/
def fixTx : Tx :=
  { txIndex := 1, txHash := "h7", blockIndex := 700000, source := "src",
    destination := none, btcAmount := 0 }

/-- C7's state: the target address has one balance row with quantity
exactly 0; the source holds 1000 of the asset. -/
def fixSt7 : DState :=
  { dispensers := [],
    balances := [{ address := fixTarget, asset := "A100", quantity := 0 },
                 { address := "src", asset := "A100", quantity := 1000 }],
    oraclePrices := [], refillCounts := [] }

/-- C7's message: OpenEmptyAddress for asset id 100, give 10, escrow
100, rate 5, onto the 21-zero-byte address. -/
def fixMsg7 : List ℕ :=
  beBytes 8 100 ++ beBytes 8 10 ++ beBytes 8 100 ++ beBytes 8 5 ++ [1]
    ++ List.replicate 21 0

/-- An open dispenser at (src, A100) with rate 5, give 10. -/
def fixRowOpen : DispenserRow :=
  { txHash := "d1", source := "src", asset := "A100", giveQuantity := 10,
    escrowQuantity := 100, satoshirate := 5, giveRemaining := 100, status := 0,
    oracleAddress := none, origin := "src", dispenseCount := 0,
    lastStatusTxHash := none, lastStatusTxSource := none, closeBlockIndex := none }

/-- C9's state: one open dispenser at (src, A100). -/
def fixSt9 : DState :=
  { dispensers := [fixRowOpen],
    balances := [{ address := "src", asset := "A100", quantity := 1000 }],
    oraclePrices := [], refillCounts := [] }

/-- C9's message: a second open for (src, A100) with a different rate. -/
def fixMsg9 : List ℕ :=
  beBytes 8 100 ++ beBytes 8 10 ++ beBytes 8 100 ++ beBytes 8 7 ++ [0]

/-- A valid open message for (src, A100): asset id 100, give 10, escrow
100, rate 5. -/
def fixMsgOpen : List ℕ :=
  beBytes 8 100 ++ beBytes 8 10 ++ beBytes 8 100 ++ beBytes 8 5 ++ [0]

/-- C8's oracle dispenser at "dst", priced by an oracle whose last
price is 0. -/
def fixRowOracle : DispenserRow :=
  { txHash := "o1", source := "dst", asset := "A1", giveQuantity := 1,
    escrowQuantity := 1, satoshirate := 99, giveRemaining := 1, status := 0,
    oracleAddress := some "oracle", origin := "dst", dispenseCount := 0,
    lastStatusTxHash := none, lastStatusTxSource := none, closeBlockIndex := none }

/-- C8's plain dispenser at "dst" with satoshirate 1000. -/
def fixRowPlain : DispenserRow :=
  { txHash := "n1", source := "dst", asset := "A2", giveQuantity := 1,
    escrowQuantity := 1, satoshirate := 1000, giveRemaining := 1, status := 0,
    oracleAddress := none, origin := "dst", dispenseCount := 0,
    lastStatusTxHash := none, lastStatusTxSource := none, closeBlockIndex := none }

/-- C8's state: the zero-priced oracle dispenser is scanned before the
plain dispenser. -/
def fixSt8 : DState :=
  { dispensers := [fixRowOracle, fixRowPlain], balances := [],
    oraclePrices := [("oracle", (0, 0))], refillCounts := [] }

/-- The payload composed in claim C6's counterexample: type tag 30,
legacy body packing timestamp 0, the 8 zero bytes of `fixE.packDouble`,
fee fraction 0, and varint-prefixed text "t". -/
def fixC6Data : List ℕ :=
  [0, 0, 0, 30, 0, 0, 0, 0, 0, 0, 0, 0, 0, 0, 0, 0, 0, 0, 0, 0, 1, 116]

end Fixtures

/-! ## Helper lemmas -/

theorem roundHalfEven_intCast (n : ℤ) : roundHalfEven (n : ℚ) = n := by
  unfold roundHalfEven
  rw [Int.fract_intCast, Int.floor_intCast]
  norm_num

/-- Half-even rounding of `q` and of `n - q` is conservative whenever
`q` is not exactly halfway between two integers. -/
theorem roundHalfEven_add_sub (n : ℤ) (q : ℚ) (h : Int.fract q ≠ 1 / 2) :
    roundHalfEven q + roundHalfEven ((n : ℚ) - q) = n := by
  rcases eq_or_lt_of_le (Int.fract_nonneg q) with h0 | h0
  · have hq : q = (⌊q⌋ : ℚ) := by
      have := Int.floor_add_fract q
      rw [← h0] at this
      linarith
    rw [hq, ← Int.cast_sub, roundHalfEven_intCast, roundHalfEven_intCast]
    ring
  · have h1 : Int.fract q < 1 := Int.fract_lt_one q
    have hq : (⌊q⌋ : ℚ) + Int.fract q = q := Int.floor_add_fract q
    have hfl : ⌊(n : ℚ) - q⌋ = n - ⌊q⌋ - 1 := by
      rw [Int.floor_eq_iff]
      constructor
      · push_cast
        linarith
      · push_cast
        linarith
    have hfr : Int.fract ((n : ℚ) - q) = 1 - Int.fract q := by
      rw [Int.fract, hfl]
      push_cast
      linarith
    rcases lt_trichotomy (Int.fract q) (1 / 2) with hlt | heq | hgt
    · have hn : ¬ Int.fract ((n : ℚ) - q) < 1 / 2 := by
        rw [hfr]
        linarith
      have h2 : 1 / 2 < Int.fract ((n : ℚ) - q) := by
        rw [hfr]
        linarith
      unfold roundHalfEven
      rw [if_pos hlt, hfl, if_neg hn, if_pos h2]
      ring
    · exact absurd heq h
    · have h2 : Int.fract ((n : ℚ) - q) < 1 / 2 := by
        rw [hfr]
        linarith
      unfold roundHalfEven
      rw [if_neg (by linarith : ¬ Int.fract q < 1 / 2), if_pos hgt, hfl, if_pos h2]
      ring

theorem rhe_bear_val : roundHalfEven ((209377 : ℚ) / 2) = 104688 := by
  have hf : ⌊(209377 : ℚ) / 2⌋ = 104688 := by
    rw [Int.floor_eq_iff]
    norm_num
  unfold roundHalfEven
  rw [Int.fract, hf]
  norm_num

theorem rhe_bull_val : roundHalfEven ((990625 : ℚ) / 2) = 495312 := by
  have hf : ⌊(990625 : ℚ) / 2⌋ = 495312 := by
    rw [Int.floor_eq_iff]
    norm_num
  unfold roundHalfEven
  rw [Int.fract, hf]
  norm_num

/-- Evaluation of `broadcast.parse`'s CFD settlement at C1's
counterexample input: feed value `10 + 1/512` (the IEEE-754-exact
double `10.001953125`).  Every intermediate Python float here is
dyadic and exact, so the rational embedding coincides with the code. -/
theorem c1_settle_eval :
    settleBetMatch true 0 2000 ((5121 : ℚ) / 512) fixBM = some
      { settled := some true, bullCredit := some 495312, bearCredit := some 104688,
        winner := none, escrowLessFee := none, fee := 0,
        credits := [("bull", 495312), ("bear", 104688), ("feed", 0)],
        matchStatus := "settled" } := by
  have hfee : betFee true 0 fixBM = 0 := by
    unfold betFee pyIntTrunc fixBM UNIT
    norm_num
  have hbearQ : cfdBearCreditExact fixBM ((5121 : ℚ) / 512) = 209377 / 2 := by
    unfold cfdBearCreditExact bearEscrow fixBM UNIT
    norm_num
  simp only [settleBetMatch]
  rw [hbearQ, hfee]
  norm_num [fixBM]
  rw [rhe_bear_val, rhe_bull_val]
  norm_num

/-- Claim C1 counterexample: a CFD bet match settled by a broadcast
parse whose emitted credits sum to 600000 while
`forward_quantity + backward_quantity = 600001` — conservation fails by
one unit, because both per-side credits land exactly on a half and
banker's rounding sends both down. -/
theorem c1_counterexample :
    settleBetMatch true 0 2000 ((5121 : ℚ) / 512) fixBM = some
      { settled := some true, bullCredit := some 495312, bearCredit := some 104688,
        winner := none, escrowLessFee := none, fee := 0,
        credits := [("bull", 495312), ("bear", 104688), ("feed", 0)],
        matchStatus := "settled" } ∧
    (495312 : ℤ) + 104688 + 0 = 600000 ∧
    fixBM.forwardQuantity + fixBM.backwardQuantity = 600001 := by
  refine ⟨c1_settle_eval, by norm_num, by norm_num [fixBM]⟩

/-- Claim C1 (amended): for every bet match resolved by a broadcast
parse, the credits emitted (winner credits plus the feed fee) sum to
`forward_quantity + backward_quantity`, *provided* that in the CFD
*settlement* case (match status `"settled"`) the exact bear credit is
not exactly halfway between two integers (the counterexample's tie).
Liquidations and Equal/NotEqual resolutions conserve unconditionally,
tie or no tie. -/
theorem c1_amended (imf : Bool) (curFfi ts : ℤ) (value : ℚ)
    (bm : BetMatch) (res : Resolution)
    (htie : res.matchStatus = "settled" →
      Int.fract (cfdBearCreditExact bm value) ≠ 1 / 2)
    (hres : settleBetMatch imf curFfi ts value bm = some res) :
    creditsSum res = bm.forwardQuantity + bm.backwardQuantity := by
  simp only [settleBetMatch] at hres
  split at hres
  case isTrue hid =>
    split at hres
    · split at hres
      · cases hres
        simp [creditsSum]
      · cases hres
        simp [creditsSum]
    · split at hres
      · cases hres
        have hne := htie rfl
        simp only [creditsSum, List.map_cons, List.map_nil, List.sum_cons, List.sum_nil]
        have hsum := roundHalfEven_add_sub
          (bm.forwardQuantity + bm.backwardQuantity - betFee imf curFfi bm)
          (cfdBearCreditExact bm value) hne
        push_cast at hsum ⊢
        linarith
      · exact absurd hres (by simp)
  case isFalse hid =>
    split at hres
    · split at hres
      · cases hres
        simp [creditsSum]
      · cases hres
        simp [creditsSum]
    · exact absurd hres (by simp)

theorem c1_eq_settle_eval :
    settleBetMatch true 0 1500 (41 : ℚ) fixBMEq = some
      { settled := none, bullCredit := none, bearCredit := none,
        winner := some "NotEqual", escrowLessFee := some 100, fee := 0,
        credits := [("neq", 100), ("feed", 0)],
        matchStatus := "settled: for notequal" } := by
  have hfee : betFee true 0 fixBMEq = 0 := by
    unfold betFee pyIntTrunc fixBMEq UNIT
    norm_num
  simp only [settleBetMatch]
  rw [hfee]
  norm_num [fixBMEq]

theorem rhe_liq_val : roundHalfEven ((1771875 : ℚ) / 2) = 885938 := by
  have hf : ⌊(1771875 : ℚ) / 2⌋ = 885937 := by
    rw [Int.floor_eq_iff]
    norm_num
  unfold roundHalfEven
  rw [Int.fract, hf]
  norm_num

/-- Evaluation of the CFD loop at feed value `10 + 3/512` (the exact
double `10.005859375`) on `fixBM`: the exact bear credit is the tie
`-285936.5`, the rounded bull credit `885938` is at least
`escrow_less_fee = 600001`, and the match liquidates for the bull. -/
theorem c1_liq_eval :
    settleBetMatch true 0 2000 ((5123 : ℚ) / 512) fixBM = some
      { settled := some false, bullCredit := some 600001, bearCredit := some 0,
        winner := none, escrowLessFee := none, fee := 0,
        credits := [("bull", 600001), ("feed", 0)],
        matchStatus := "settled: liquidated for bull" } := by
  have hfee : betFee true 0 fixBM = 0 := by
    unfold betFee pyIntTrunc fixBM UNIT
    norm_num
  have hbearQ : cfdBearCreditExact fixBM ((5123 : ℚ) / 512) = -571873 / 2 := by
    unfold cfdBearCreditExact bearEscrow fixBM UNIT
    norm_num
  simp only [settleBetMatch]
  rw [hbearQ, hfee]
  norm_num [fixBM]
  rw [rhe_liq_val]
  norm_num

/-- Witness for `c1_amended`, applied twice: at a concrete
Equal/NotEqual match, and at a CFD *liquidation* whose exact bear
credit is a half-integer tie — the case the no-tie proviso does not
restrict. -/
theorem c1_witness :
    (settleBetMatch true 0 1500 (41 : ℚ) fixBMEq = some
      { settled := none, bullCredit := none, bearCredit := none,
        winner := some "NotEqual", escrowLessFee := some 100, fee := 0,
        credits := [("neq", 100), ("feed", 0)],
        matchStatus := "settled: for notequal" } ∧
    creditsSum
      { settled := none, bullCredit := none, bearCredit := none,
        winner := some "NotEqual", escrowLessFee := some 100, fee := 0,
        credits := [("neq", 100), ("feed", 0)],
        matchStatus := "settled: for notequal" } = 100) ∧
    (Int.fract (cfdBearCreditExact fixBM ((5123 : ℚ) / 512)) = 1 / 2 ∧
    creditsSum
      { settled := some false, bullCredit := some 600001, bearCredit := some 0,
        winner := none, escrowLessFee := none, fee := 0,
        credits := [("bull", 600001), ("feed", 0)],
        matchStatus := "settled: liquidated for bull" } = 600001) := by
  constructor
  · refine ⟨c1_eq_settle_eval, ?_⟩
    have h := c1_amended true 0 1500 (41 : ℚ) fixBMEq _
      (by intro h; simp at h) c1_eq_settle_eval
    rw [h]
    norm_num [fixBMEq]
  · constructor
    · have hbearQ : cfdBearCreditExact fixBM ((5123 : ℚ) / 512) = -571873 / 2 := by
        unfold cfdBearCreditExact bearEscrow fixBM UNIT
        norm_num
      rw [hbearQ, Int.fract]
      have hf : ⌊(-571873 : ℚ) / 2⌋ = -285937 := by
        rw [Int.floor_eq_iff]
        norm_num
      rw [hf]
      norm_num
    · have h := c1_amended true 0 2000 ((5123 : ℚ) / 512) fixBM _
        (by intro h; simp at h) c1_liq_eval
      rw [h]
      norm_num [fixBM]

/-! ## Claim C4: feed monotonicity -/

theorem lastValidBroadcast_eq (feed : List BroadcastRow) :
    lastValidBroadcast feed = (validRows feed).getLast? := rfl

theorem broadcastRowOf_status (p : Protocol) (E : Externals) (feed : List BroadcastRow)
    (source : String) (i : BParseInput) :
    (broadcastRowOf p E feed source i).status = broadcastStatusOf p E feed source i := by
  unfold broadcastRowOf
  split_ifs <;> rfl

theorem invalidJoin_ne_valid (l : List String) : "invalid: " ++ joinSemi l ≠ "valid" := by
  intro h
  have hlen := congrArg String.length h
  rw [String.length_append] at hlen
  have h9 : ("invalid: " : String).length = 9 := rfl
  have h5 : ("valid" : String).length = 5 := rfl
  omega

/-- A final status of `"valid"` can only come from an unpack-valid
input with an empty problem list. -/
theorem broadcastStatusOf_valid (p : Protocol) (E : Externals) (feed : List BroadcastRow)
    (source : String) (i : BParseInput)
    (h : broadcastStatusOf p E feed source i = "valid") :
    i.status = "valid" ∧ broadcastProblems p E feed source i = [] := by
  unfold broadcastStatusOf at h
  by_cases h1 : i.status = "valid"
  · rw [if_pos h1] at h
    by_cases h2 : broadcastProblems p E feed source i = []
    · exact ⟨h1, h2⟩
    · rw [if_neg h2] at h
      exact absurd h (invalidJoin_ne_valid _)
  · rw [if_neg h1] at h
    exact absurd h h1

/-- When validation reports no problems and the feed has a last valid
broadcast, that broadcast is unlocked and strictly older. -/
theorem validate_nil_mono (p : Protocol) (E : Externals) (feed : List BroadcastRow)
    (source : String) (ts : ℤ) (v : ℚ) (ffi : ℤ) (text mime : String)
    (h : broadcastValidate p E feed source ts v ffi text mime = [])
    (lb : BroadcastRow) (hlb : lastValidBroadcast feed = some lb) :
    lb.locked = false ∧ lb.timestamp < ts := by
  unfold broadcastValidate at h
  rw [hlb] at h
  simp only [List.append_eq_nil] at h
  have h5 := h.1.1.1.2
  by_cases hl : lb.locked
  · rw [if_pos hl] at h5
    exact absurd h5 (by simp)
  · rw [if_neg hl] at h5
    by_cases hts : ts ≤ lb.timestamp
    · rw [if_pos hts] at h5
      exact absurd h5 (by simp)
    · exact ⟨by simpa using hl, by omega⟩

/-- Under the feed invariant, when the last valid broadcast is
unlocked, every valid broadcast is unlocked. -/
theorem allValidUnlocked (feed : List BroadcastRow) (hJ : feedInvariant feed)
    (hlast : ∀ lb, lastValidBroadcast feed = some lb → lb.locked = false) :
    ∀ r ∈ validRows feed, r.locked = false := by
  rcases List.eq_nil_or_concat (validRows feed) with h | ⟨l2, b, h⟩
  · rw [h]
    simp
  · rw [List.concat_eq_append] at h
    intro r hr
    rw [h] at hr
    rcases List.mem_append.mp hr with h1 | h2
    · apply hJ.2
      rw [h, List.dropLast_concat]
      exact h1
    · rw [List.mem_singleton.mp h2]
      apply hlast
      rw [lastValidBroadcast_eq, h, List.getLast?_concat]

/-- Every `broadcast.parse` preserves the feed invariant. -/
theorem c4_preserved (p : Protocol) (E : Externals) (feed : List BroadcastRow)
    (source : String) (i : BParseInput) (hJ : feedInvariant feed) :
    feedInvariant (parseBroadcast p E feed source i).1 := by
  unfold parseBroadcast
  by_cases hio : pySubstr "integer overflow" (broadcastStatusOf p E feed source i) = true
  · simpa [hio] using hJ
  · rw [if_neg (by simpa using hio)]
    set row := broadcastRowOf p E feed source i with hrow
    by_cases hv : broadcastStatusOf p E feed source i = "valid"
    · obtain ⟨his, hpr⟩ := broadcastStatusOf_valid p E feed source i hv
      have hrowstat : row.status = "valid" := by
        rw [hrow, broadcastRowOf_status]
        exact hv
      have hvr : validRows (feed ++ [row]) = validRows feed ++ [row] := by
        unfold validRows
        rw [List.filter_append]
        simp [hrowstat]
      have hunlocked : ∀ r ∈ validRows feed, r.locked = false := by
        apply allValidUnlocked feed hJ
        intro lb hlb
        exact (validate_nil_mono p E feed source _ _ _ _ _ hpr lb hlb).1
      by_cases hlock : pyLower ((i.text).getD "") = "lock"
      · have hrl : row.locked = true := by
          rw [hrow]
          unfold broadcastRowOf
          rw [if_pos hlock]
        constructor
        · have h1 := hJ.1
          unfold validUnlockedTs strictlyIncreasing at h1 ⊢
          rw [hvr, List.filter_append]
          simpa [hrl] using h1
        · rw [hvr, List.dropLast_concat]
          exact hunlocked
      · have hrl : row.locked = false := by
          rw [hrow]
          unfold broadcastRowOf
          rw [if_neg hlock, if_pos his]
        have hrts : row.timestamp = bClampedTs i := by
          rw [hrow]
          unfold broadcastRowOf
          rw [if_neg hlock, if_pos his]
        have hfilter : (validRows feed).filter (fun r => !r.locked) = validRows feed :=
          List.filter_eq_self.mpr (by
            intro a ha
            simp [hunlocked a ha])
        constructor
        · have h1 := hJ.1
          unfold validUnlockedTs strictlyIncreasing at h1 ⊢
          rw [hvr, List.filter_append, hfilter]
          rw [List.filter_cons, List.map_append]
          simp only [hrl]
          rw [List.chain'_append]
          refine ⟨by rwa [hfilter] at h1, by simp, ?_⟩
          intro x hx y hy
          simp only [Bool.not_false, if_true, List.map_cons, List.map_nil,
            List.head?_cons, Option.mem_def, Option.some.injEq] at hy
          rcases hlb : lastValidBroadcast feed with _ | lb
          · rw [lastValidBroadcast_eq] at hlb
            rw [List.getLast?_eq_none_iff.mp hlb] at hx
            simp at hx
          · have hmono := validate_nil_mono p E feed source _ _ _ _ _ hpr lb hlb
            rw [List.getLast?_map] at hx
            rw [lastValidBroadcast_eq] at hlb
            rw [hlb] at hx
            have hx2 : lb.timestamp = x := by simpa using hx
            rw [← hy, ← hx2, hrts]
            exact hmono.2
        · rw [hvr, List.dropLast_concat]
          exact hunlocked
    · have hrs : row.status ≠ "valid" := by
        rw [hrow, broadcastRowOf_status]
        exact hv
      have hvr : validRows (feed ++ [row]) = validRows feed := by
        unfold validRows
        rw [List.filter_append]
        simp [hrs]
      constructor
      · have h1 := hJ.1
        unfold validUnlockedTs strictlyIncreasing at h1 ⊢
        rw [hvr]
        exact h1
      · rw [hvr]
        exact hJ.2

/-- A broadcast at or below the last valid unlocked timestamp draws the
monotonicity reason. -/
theorem c4_mono_reason (p : Protocol) (E : Externals) (feed : List BroadcastRow)
    (source : String) (ts : ℤ) (v : ℚ) (ffi : ℤ) (text mime : String)
    (lb : BroadcastRow) (hlb : lastValidBroadcast feed = some lb)
    (hlock : lb.locked = false) (hts : ts ≤ lb.timestamp) :
    "feed timestamps not monotonically increasing" ∈
      broadcastValidate p E feed source ts v ffi text mime := by
  unfold broadcastValidate
  rw [hlb]
  simp [hlock, hts]

theorem c4_cex_problems :
    broadcastProblems fixP fixE fixFeed "src" fixLockInput = [] := by
  unfold broadcastProblems broadcastValidate
  have hA : ¬ (bClampedTs fixLockInput > MAX_INT ∨
      bClampedV fixLockInput > (MAX_INT : ℚ) ∨ fixLockInput.feeFractionInt > MAX_INT) := by
    unfold bClampedTs bClampedV fixLockInput MAX_INT
    norm_num [min_def]
  rw [if_neg hA]
  decide

theorem c4_cex_status :
    broadcastStatusOf fixP fixE fixFeed "src" fixLockInput = "valid" := by
  unfold broadcastStatusOf
  rw [c4_cex_problems]
  decide

theorem c4_cex_parse :
    parseBroadcast fixP fixE fixFeed "src" fixLockInput =
      (fixFeed ++ [fixLockRow], "valid") := by
  unfold parseBroadcast broadcastRowOf
  rw [c4_cex_status]
  decide

/-- Claim C4 counterexample: a feed with strictly increasing valid
timestamps (just 100), and a *valid* lock broadcast at timestamp 150
whose parse records a valid row with timestamp 0 — after which the
valid timestamps `[100, 0]` are no longer strictly increasing. -/
theorem c4_counterexample :
    strictlyIncreasing (validTimestamps fixFeed) ∧
    (parseBroadcast fixP fixE fixFeed "src" fixLockInput).2 = "valid" ∧
    ¬ strictlyIncreasing
        (validTimestamps (parseBroadcast fixP fixE fixFeed "src" fixLockInput).1) := by
  rw [c4_cex_parse]
  exact ⟨by decide, rfl, by decide⟩

/-- Claim C4 (amended): (1) every parse preserves the invariant that
the timestamps of a source's valid *unlocked* broadcasts are strictly
increasing and a valid locked (lock) row is only ever the last valid
row; (2) a new broadcast whose timestamp is ≤ the last valid
broadcast's (that broadcast not locked) draws
`"feed timestamps not monotonically increasing"`. -/
theorem c4_amended :
    (∀ (p : Protocol) (E : Externals) (feed : List BroadcastRow) (source : String)
        (i : BParseInput), feedInvariant feed →
      feedInvariant (parseBroadcast p E feed source i).1) ∧
    (∀ (p : Protocol) (E : Externals) (feed : List BroadcastRow) (source : String)
        (ts : ℤ) (v : ℚ) (ffi : ℤ) (text mime : String) (lb : BroadcastRow),
      lastValidBroadcast feed = some lb → lb.locked = false → ts ≤ lb.timestamp →
      "feed timestamps not monotonically increasing" ∈
        broadcastValidate p E feed source ts v ffi text mime) :=
  ⟨c4_preserved, c4_mono_reason⟩

/-- Witness for `c4_amended` at the concrete feed and lock input. -/
theorem c4_witness :
    feedInvariant (parseBroadcast fixP fixE fixFeed "src" fixLockInput).1 ∧
    "feed timestamps not monotonically increasing" ∈
      broadcastValidate fixP fixE fixFeed "src" 100 0 0 "" "" :=
  ⟨c4_amended.1 fixP fixE fixFeed "src" fixLockInput (by decide),
   c4_amended.2 fixP fixE fixFeed "src" 100 0 0 "" "" fixFeedRow (by decide)
     (by decide) (by decide)⟩

/-! ## Claim C10: lock broadcasts -/

theorem lockedFeed_not_in_options (p : Protocol) (E : Externals) (text : String) :
    "locked feed" ∉ validateOptionsSection p E text := by
  simp only [validateOptionsSection]
  split_ifs with h1
  · split
    · simp
    · split_ifs <;> simp
  · simp

/-- When every valid broadcast of the feed is unlocked — in particular
when any recorded lock rows are invalid — validation never reports
`"locked feed"`. -/
theorem c10_notLocked (p : Protocol) (E : Externals) (feed : List BroadcastRow)
    (source : String) (ts : ℤ) (v : ℚ) (ffi : ℤ) (text mime : String)
    (hvalid : ∀ r ∈ validRows feed, r.locked = false)
    (hcc : ∀ m t, "locked feed" ∉ E.checkContent m t) :
    "locked feed" ∉ broadcastValidate p E feed source ts v ffi text mime := by
  unfold broadcastValidate
  intro hmem
  simp only [List.mem_append] at hmem
  rcases hmem with ((((((h | h) | h) | h) | h) | h) | h) | h
  · revert h
    split_ifs <;> simp
  · revert h
    split_ifs <;> simp
  · revert h
    split_ifs <;> simp
  · revert h
    split_ifs <;> simp
  · revert h
    cases hlb : lastValidBroadcast feed with
    | none => simp
    | some lb =>
      have hlbm : lb ∈ validRows feed := by
        rw [lastValidBroadcast_eq] at hlb
        obtain ⟨hne, heq⟩ := List.mem_getLast?_eq_getLast (Option.mem_def.mpr hlb)
        rw [heq]
        exact List.getLast_mem hne
      dsimp only
      rw [if_neg (by simp [hvalid lb hlbm])]
      split_ifs <;> simp
  · revert h
    split_ifs <;> simp
  · revert h
    split_ifs with h1
    · exact fun hh => lockedFeed_not_in_options p E text hh
    · simp
  · revert h
    split_ifs with h1
    · exact fun hh => hcc mime text hh
    · simp

/-- The lock branch of `broadcast.parse`: the cleared locked row is
recorded for any status, except that an `"integer overflow"` status
skips the insertion altogether. -/
theorem c10_lockRow (p : Protocol) (E : Externals) (feed : List BroadcastRow)
    (source : String) (i : BParseInput)
    (hlock : pyLower ((i.text).getD "") = "lock") :
    (¬ pySubstr "integer overflow" (broadcastStatusOf p E feed source i) = true →
      (parseBroadcast p E feed source i).1 = feed ++ [lockRowOf p E feed source i]) ∧
    (pySubstr "integer overflow" (broadcastStatusOf p E feed source i) = true →
      (parseBroadcast p E feed source i).1 = feed) := by
  constructor
  · intro hio
    unfold parseBroadcast broadcastRowOf lockRowOf
    rw [if_neg (by simpa using hio), if_pos hlock]
  · intro hio
    unfold parseBroadcast
    rw [if_pos hio]

theorem c10_cex_problems :
    broadcastProblems fixP fixE [] "src" fixOverflowLockInput =
      ["integer overflow", "fee fraction greater than or equal to 1"] := by
  unfold broadcastProblems broadcastValidate
  have hA : bClampedTs fixOverflowLockInput > MAX_INT ∨
      bClampedV fixOverflowLockInput > (MAX_INT : ℚ) ∨
      fixOverflowLockInput.feeFractionInt > MAX_INT :=
    Or.inr (Or.inr (by unfold fixOverflowLockInput MAX_INT; norm_num))
  rw [if_pos hA]
  decide

theorem c10_cex_status :
    broadcastStatusOf fixP fixE [] "src" fixOverflowLockInput =
      "invalid: integer overflow; fee fraction greater than or equal to 1" := by
  unfold broadcastStatusOf
  rw [c10_cex_problems]
  decide

/-- Claim C10 counterexample: a broadcast whose text lower-cases to
"lock" but whose status contains `"integer overflow"` is not recorded
at all — no locked row is inserted, against the claim's "always
recorded with locked=true ... regardless of its validation status". -/
theorem c10_counterexample :
    pyLower ((fixOverflowLockInput.text).getD "") = "lock" ∧
    pySubstr "integer overflow"
      (parseBroadcast fixP fixE [] "src" fixOverflowLockInput).2 = true ∧
    (parseBroadcast fixP fixE [] "src" fixOverflowLockInput).1 = [] := by
  have hsub : pySubstr "integer overflow"
      (broadcastStatusOf fixP fixE [] "src" fixOverflowLockInput) = true := by
    rw [c10_cex_status]
    decide
  refine ⟨by decide, hsub, ?_⟩
  unfold parseBroadcast
  rw [if_pos hsub]

/-- Claim C10 (amended): (1) a broadcast whose text lower-cases to
"lock" is recorded with `locked = true` and cleared fields whatever its
status — *unless* the status contains `"integer overflow"`, in which
case no row is recorded; (2) a lock broadcast recorded with an invalid
status does not lock the feed: as long as every *valid* broadcast of
the feed is unlocked, no subsequent broadcast is rejected with
`"locked feed"`. -/
theorem c10_amended :
    (∀ (p : Protocol) (E : Externals) (feed : List BroadcastRow) (source : String)
        (i : BParseInput), pyLower ((i.text).getD "") = "lock" →
      (¬ pySubstr "integer overflow" (broadcastStatusOf p E feed source i) = true →
        (parseBroadcast p E feed source i).1 = feed ++ [lockRowOf p E feed source i]) ∧
      (pySubstr "integer overflow" (broadcastStatusOf p E feed source i) = true →
        (parseBroadcast p E feed source i).1 = feed)) ∧
    (∀ (p : Protocol) (E : Externals) (feed : List BroadcastRow) (source : String)
        (ts : ℤ) (v : ℚ) (ffi : ℤ) (text mime : String),
      (∀ r ∈ validRows feed, r.locked = false) →
      (∀ m t, "locked feed" ∉ E.checkContent m t) →
      "locked feed" ∉ broadcastValidate p E feed source ts v ffi text mime) :=
  ⟨c10_lockRow, c10_notLocked⟩

/-- Witness for `c10_amended` at the concrete feed and inputs. -/
theorem c10_witness :
    (parseBroadcast fixP fixE fixFeed "src" fixLockInput).1 =
      fixFeed ++ [lockRowOf fixP fixE fixFeed "src" fixLockInput] ∧
    "locked feed" ∉ broadcastValidate fixP fixE fixFeed "src" 150 1 0 "zzz" "" :=
  ⟨(c10_amended.1 fixP fixE fixFeed "src" fixLockInput (by decide)).1
      (by rw [c4_cex_status]; decide),
   c10_amended.2 fixP fixE fixFeed "src" 150 1 0 "zzz" "" (by decide)
      (by intro m t; simp [fixE])⟩

/-! ## Claim C3: unpack totality and failure statuses -/

/-- Claim C3 counterexample: the 17-byte pack-text-era payload
`00*16 ++ [0x05]` (varint text length 5, one byte of text) fails the
`assert len(text) == textlen` and yields the status
`"invalid: could not unpack text"` — not the claimed
`"invalid: could not unpack"`. -/
theorem c3_counterexample :
    broadcastUnpack fixP fixE (List.replicate 16 0 ++ [5]) = .ok
      { timestamp := 0, valueBits := none, feeFractionInt := 0, mimeType := "",
        textBytes := none, status := "invalid: could not unpack text" } ∧
    ("invalid: could not unpack text" : String) ≠ "invalid: could not unpack" ∧
    ("invalid: could not unpack text" : String) ≠ "valid" :=
  ⟨rfl, by decide, by decide⟩

/-- Claim C3 (amended): `broadcast.unpack` either raises the uncaught
varint truncation error (pack-text payloads whose text-length varint
over-runs the buffer, e.g. a 16-byte payload), or returns a result
whose status is `"valid"`, `"invalid: could not unpack"` or
`"invalid: could not unpack text"`, with zeroed/None fields on the two
failure statuses; `dispenser.unpack` is total, and its failure makes
`dispenser.parse` record `"invalid: could not unpack"` and leave the
state unchanged. -/
theorem c3_amended (p : Protocol) (E : Externals) (msg : List ℕ) :
    (broadcastUnpack p E msg = .error .varintTruncation ∨
      ∃ bu, broadcastUnpack p E msg = .ok bu ∧
        (bu.status = "valid" ∨
          ((bu.status = "invalid: could not unpack" ∨
            bu.status = "invalid: could not unpack text") ∧
           bu.timestamp = 0 ∧ bu.valueBits = none ∧ bu.feeFractionInt = 0 ∧
           bu.mimeType = "" ∧ bu.textBytes = none))) ∧
    (∀ (st : DState) (tx : Tx) (msg2 : List ℕ),
      dispenserUnpack p E msg2 = .failed →
      dispenserParse p E st tx msg2 = (st, "invalid: could not unpack")) := by
  constructor
  · have hleg : ∀ r : Except LegacyExc (ℤ × ℕ × ℤ × List ℕ),
        legacyToUnpacked r = .error .varintTruncation ∨
        ∃ bu, legacyToUnpacked r = .ok bu ∧
          (bu.status = "valid" ∨
            ((bu.status = "invalid: could not unpack" ∨
              bu.status = "invalid: could not unpack text") ∧
             bu.timestamp = 0 ∧ bu.valueBits = none ∧ bu.feeFractionInt = 0 ∧
             bu.mimeType = "" ∧ bu.textBytes = none)) := by
      intro r
      match r with
      | .ok (ts, vb, ffi, tb) => exact Or.inr ⟨_, rfl, Or.inl rfl⟩
      | .error .structError =>
        exact Or.inr ⟨_, rfl, Or.inr ⟨Or.inl rfl, rfl, rfl, rfl, rfl, rfl⟩⟩
      | .error .assertionError =>
        exact Or.inr ⟨_, rfl, Or.inr ⟨Or.inr rfl, rfl, rfl, rfl, rfl, rfl⟩⟩
      | .error .varintTrunc => exact Or.inl rfl
    unfold broadcastUnpack
    by_cases ht : p.taprootSupport = true
    · rw [if_pos ht]
      cases hc : E.cborLoads5 msg with
      | some t =>
        obtain ⟨ts, vb, ffi, mime, tb⟩ := t
        exact Or.inr ⟨_, rfl, Or.inl rfl⟩
      | none => exact hleg _
    · rw [if_neg ht]
      exact hleg _
  · intro st tx msg2 hfail
    unfold dispenserParse
    rw [hfail]

/-- Witness for `c3_amended`: the empty payload fails dispenser unpack
and the parse records the unpack-failure status without touching the
state. -/
theorem c3_witness :
    dispenserParse fixP fixE fixSt9 fixTx [] = (fixSt9, "invalid: could not unpack") :=
  (c3_amended fixP fixE []).2 fixSt9 fixTx [] rfl

/-! ## Claim C8: dispensability check -/

theorem exists_split_cons {α : Type} (a : α) (rest : List α) (F G : α → Prop) :
    (∃ l1 r l2, a :: rest = l1 ++ r :: l2 ∧ F r ∧ ∀ x ∈ l1, G x) ↔
      (F a ∨ (G a ∧ ∃ l1 r l2, rest = l1 ++ r :: l2 ∧ F r ∧ ∀ x ∈ l1, G x)) := by
  constructor
  · rintro ⟨l1, r, l2, heq, hF, hG⟩
    cases l1 with
    | nil =>
      simp only [List.nil_append, List.cons.injEq] at heq
      exact Or.inl (heq.1 ▸ hF)
    | cons b l1t =>
      simp only [List.cons_append, List.cons.injEq] at heq
      obtain ⟨hab, hrest⟩ := heq
      refine Or.inr ⟨hab ▸ hG b (by simp), l1t, r, l2, hrest, hF, ?_⟩
      intro x hx
      exact hG x (by simp [hx])
  · rintro (hF | ⟨hGa, l1, r, l2, heq, hF, hG⟩)
    · exact ⟨[], a, rest, rfl, hF, by simp⟩
    · refine ⟨a :: l1, r, l2, by simp [heq], hF, ?_⟩
      intro x hx
      rcases List.mem_cons.mp hx with h | h
      · exact h ▸ hGa
      · exact hG x h

theorem dispensableScan_iff (E : Externals) (st : DState) (amount : ℤ)
    (l : List DispenserRow) :
    dispensableScan E st amount l = true ↔
      ∃ l1 r l2, l = l1 ++ r :: l2 ∧ specFires E st amount r = true ∧
        ∀ x ∈ l1, specFires E st amount x = false ∧ specBlocks E st x = false := by
  induction l with
  | nil =>
    simp only [dispensableScan]
    constructor
    · intro h
      exact absurd h (by simp)
    · rintro ⟨l1, r, l2, heq, _, _⟩
      cases l1 <;> simp at heq
  | cons a rest ih =>
    rw [exists_split_cons]
    cases hoa : a.oracleAddress with
    | none =>
      have hblocks : specBlocks E st a = false := by
        unfold specBlocks
        rw [hoa]
      by_cases hge : amount ≥ a.satoshirate
      · have hf : specFires E st amount a = true := by
          unfold specFires
          rw [hoa]
          simpa using hge
        simp [dispensableScan, hoa, hge, hf]
      · have hf : specFires E st amount a = false := by
          unfold specFires
          rw [hoa]
          simpa using hge
        simp [dispensableScan, hoa, hge, hf, hblocks, ih]
    | some oa =>
      by_cases hb : E.satoshirateToFiat a.satoshirate = 0 ∨
          ((oracleLastPrice st oa).map fun e => e.1).getD 0 = 0
      · have hblocks : specBlocks E st a = true := by
          unfold specBlocks
          rw [hoa]
          rcases hb with hb | hb <;> simp [hb]
        have hf : specFires E st amount a = false := by
          unfold specFires
          rw [hoa]
          simp only []
          rw [if_pos hb]
        have hscan : dispensableScan E st amount (a :: rest) = false := by
          simp only [dispensableScan, hoa]
          rw [if_pos hb]
        simp [hscan, hf, hblocks]
      · by_cases hge : (amount : ℚ) ≥
            E.satoshirateToFiat a.satoshirate /
              (((oracleLastPrice st oa).map fun e => e.1).getD 0)
        · have hf : specFires E st amount a = true := by
            unfold specFires
            rw [hoa]
            simp only []
            rw [if_neg hb]
            simpa using hge
          have hscan : dispensableScan E st amount (a :: rest) = true := by
            simp only [dispensableScan, hoa]
            rw [if_neg hb, if_pos hge]
          simp [hscan, hf]
        · have hblocks : specBlocks E st a = false := by
            unfold specBlocks
            rw [hoa]
            push_neg at hb
            simp [hb.1, hb.2]
          have hf : specFires E st amount a = false := by
            unfold specFires
            rw [hoa]
            simp only []
            rw [if_neg hb]
            simpa using hge
          have hscan : dispensableScan E st amount (a :: rest) =
              dispensableScan E st amount rest := by
            simp only [dispensableScan, hoa]
            rw [if_neg hb, if_neg hge]
          rw [hscan, ih]
          simp [hf, hblocks]

/-- Claim C8 (amended): `is_dispensable` returns true iff, scanning
the destination's Open/Closing dispensers in row order, some dispenser
fires before any oracle dispenser with zero fiatrate or zero last
price is reached — such a dispenser aborts the whole scan. -/
theorem c8_amended (E : Externals) (st : DState) (d : String) (amount : ℤ) :
    isDispensable E st (some d) amount = true ↔
      ∃ l1 r l2, openClosingAt st d = l1 ++ r :: l2 ∧
        specFires E st amount r = true ∧
        ∀ x ∈ l1, specFires E st amount x = false ∧ specBlocks E st x = false := by
  unfold isDispensable
  dsimp only
  by_cases hc : couldBeDispensable st d = true
  · rw [if_neg (by simp [hc])]
    exact dispensableScan_iff E st amount (openClosingAt st d)
  · rw [if_pos (by simpa using hc)]
    have hempty : openClosingAt st d = [] := by
      unfold openClosingAt
      rw [List.filter_eq_nil_iff]
      intro r hr
      have hnone : ∀ x ∈ st.dispensers, ¬ (decide (x.source = d) = true) := by
        simpa [couldBeDispensable, List.any_eq_true] using hc
      simp [hnone r hr]
    rw [hempty]
    constructor
    · intro h
      exact absurd h (by simp)
    · rintro ⟨l1, r, l2, heq, _, _⟩
      cases l1 <;> simp at heq

/-- Claim C8 counterexample: at "dst" a zero-priced oracle dispenser
precedes a plain dispenser whose satoshirate 1000 is covered by the
payment, so some Open dispenser fires, yet `is_dispensable` returns
false. -/
theorem c8_counterexample :
    isDispensable fixE fixSt8 (some "dst") 1000 = false ∧
    (openClosingAt fixSt8 "dst").any (specFires fixE fixSt8 1000) = true :=
  ⟨by decide, by decide⟩

/-! ## Claim C6: compose timestamp defaulting -/
theorem beBytes_length (w n : ℕ) : (beBytes w n).length = w := by
  induction w generalizing n with
  | zero => rfl
  | succ w ih => simp [beBytes, ih]

theorem leBytes_length (w n : ℕ) : (leBytes w n).length = w := by
  induction w generalizing n with
  | zero => rfl
  | succ w ih => simp [leBytes, ih]

theorem leNat_cons (b : ℕ) (l : List ℕ) : leNat (b :: l) = leNat l * 256 + b := rfl

theorem leNat_leBytes (w n : ℕ) (h : n < 2 ^ (8 * w)) : leNat (leBytes w n) = n := by
  induction w generalizing n with
  | zero =>
    simp only [Nat.mul_zero, pow_zero, Nat.lt_one_iff] at h
    simp [leBytes, leNat, h]
  | succ w ih =>
    have h2 : n / 256 < 2 ^ (8 * w) := by
      rw [Nat.div_lt_iff_lt_mul (by norm_num)]
      calc n < 2 ^ (8 * (w + 1)) := h
        _ = 2 ^ (8 * w) * 256 := by rw [Nat.mul_succ, pow_add]; norm_num
    rw [leBytes, leNat_cons, ih _ h2]
    omega

theorem varintDeser_cons (b : ℕ) (rest : List ℕ) :
    varintDeser (b :: rest) = if b < 0xfd then some b else
      (if rest.length < (if b = 0xfd then 2 else if b = 0xfe then 4 else 8) then none
       else some (leNat (rest.take (if b = 0xfd then 2 else if b = 0xfe then 4 else 8)))) := rfl

theorem varintDeser_ser (n : ℕ) (rest : List ℕ) (h : n < 2 ^ 64) :
    varintDeser (varintSer n ++ rest) = some n := by
  unfold varintSer
  by_cases h1 : n < 0xfd
  · rw [if_pos h1]
    simp [varintDeser, h1]
  · rw [if_neg h1]
    by_cases h2 : n ≤ 0xffff
    · rw [if_pos h2]
      show varintDeser (0xfd :: (leBytes 2 n ++ rest)) = some n
      rw [varintDeser_cons]
      have hlen : (leBytes 2 n ++ rest).length = 2 + rest.length := by
        simp [leBytes_length]
      norm_num [hlen]
      rw [List.take_left' (leBytes_length 2 n), leNat_leBytes 2 n (by norm_num; omega)]
    · rw [if_neg h2]
      by_cases h3 : n ≤ 0xffffffff
      · rw [if_pos h3]
        show varintDeser (0xfe :: (leBytes 4 n ++ rest)) = some n
        rw [varintDeser_cons]
        have hlen : (leBytes 4 n ++ rest).length = 4 + rest.length := by
          simp [leBytes_length]
        norm_num [hlen]
        rw [List.take_left' (leBytes_length 4 n), leNat_leBytes 4 n (by norm_num; omega)]
      · rw [if_neg h3]
        show varintDeser (0xff :: (leBytes 8 n ++ rest)) = some n
        rw [varintDeser_cons]
        have hlen : (leBytes 8 n ++ rest).length = 8 + rest.length := by
          simp [leBytes_length]
        norm_num [hlen]
        rw [List.take_left' (leBytes_length 8 n), leNat_leBytes 8 n (by norm_num at h ⊢; omega)]

theorem c6_decode_body (pd : List ℕ) (hpd : pd.length = 8) (f : ℕ) (bs : List ℕ)
    (hbs : bs.length < 2 ^ 64) :
    legacyDecodedTimestamp true
      (beBytes 4 0 ++ pd ++ beBytes 4 f ++ (varintSer bs.length ++ bs)) = some 0 := by
  have hfix : (beBytes 4 0 ++ pd ++ beBytes 4 f).length = 16 := by
    simp [beBytes_length, hpd]
  have hvar : (varintSer bs.length).length ≥ 1 := by
    unfold varintSer
    split_ifs <;> simp [leBytes_length]
  have hlen : (beBytes 4 0 ++ pd ++ beBytes 4 f ++ (varintSer bs.length ++ bs)).length =
      16 + ((varintSer bs.length).length + bs.length) := by
    simp only [List.length_append] at hfix ⊢
    omega
  unfold legacyDecodedTimestamp loadDataLegacy
  rw [if_neg (by omega)]
  rw [if_pos rfl]
  have htake : List.take 4 (beBytes 4 0 ++ pd ++ beBytes 4 f ++ (varintSer bs.length ++ bs)) =
      beBytes 4 0 := by
    rw [List.append_assoc, List.append_assoc]
    exact List.take_left' (beBytes_length 4 0)
  have hdrop : List.drop 16 (beBytes 4 0 ++ pd ++ beBytes 4 f ++ (varintSer bs.length ++ bs)) =
      varintSer bs.length ++ bs := List.drop_left' hfix
  rw [htake, hdrop, varintDeser_ser bs.length bs hbs]
  dsimp only
  by_cases hz : bs.length = 0
  · rw [if_pos hz]
    rw [if_pos (show List.length ([] : List ℕ) = bs.length by simp [hz])]
    rfl
  · rw [if_neg hz]
    have hdrop2 : List.drop ((varintSer bs.length ++ bs).length - bs.length)
        (varintSer bs.length ++ bs) = bs := by
      have : (varintSer bs.length ++ bs).length - bs.length = (varintSer bs.length).length := by
        simp
      rw [this]
      exact List.drop_left' rfl
    rw [hdrop2, if_pos rfl]
    rfl

theorem composeBroadcast_taproot_default (p : Protocol) (E : Externals)
    (feed : List BroadcastRow) (source : String) (value feeFraction : ℚ)
    (text mimeType : String) (lb : BroadcastRow)
    (hlb : lastValidBroadcast feed = some lb)
    (hok : broadcastValidate p E feed source (lb.timestamp + 1) value
      (pyIntTrunc (feeFraction * 100000000)) text mimeType = [])
    (htap : p.taprootSupport = true) :
    composeBroadcast p E feed source 0 value feeFraction text mimeType false =
      .ok (source, [], 30 :: 0x85 ::
        (cborInt (lb.timestamp + 1) ++ (0xfb :: E.packDouble value)
          ++ cborInt (pyIntTrunc (feeFraction * 100000000)) ++ cborStr mimeType
          ++ cborBytes (E.contentToBytes text
              (if mimeType = "" then "text/plain" else mimeType)))) := by
  simp only [composeBroadcast, hlb, htap]
  norm_num [hok]

theorem composeBroadcast_legacy_default (p : Protocol) (E : Externals)
    (feed : List BroadcastRow) (source : String) (value feeFraction : ℚ)
    (text mimeType : String) (lb : BroadcastRow)
    (hlb : lastValidBroadcast feed = some lb)
    (hok : broadcastValidate p E feed source (lb.timestamp + 1) value
      (pyIntTrunc (feeFraction * 100000000)) text mimeType = [])
    (htap : p.taprootSupport = false) (hpt : p.broadcastPackText = true)
    (hffi0 : 0 ≤ pyIntTrunc (feeFraction * 100000000))
    (hffiB : pyIntTrunc (feeFraction * 100000000) < 2 ^ 32) :
    composeBroadcast p E feed source 0 value feeFraction text mimeType false =
      .ok (source, [],
        beBytes 4 30 ++ (beBytes 4 0 ++ E.packDouble value
          ++ beBytes 4 (pyIntTrunc (feeFraction * 100000000)).toNat
          ++ varintSer (utf8Encode text).length ++ utf8Encode text)) := by
  simp only [composeBroadcast, hlb, htap, hpt]
  norm_num [hok, hffi0, hffiB]
  intro h
  exact absurd h (by omega)


theorem c6_fix_ffi : pyIntTrunc ((0 : ℚ) * 100000000) = 0 := by
  unfold pyIntTrunc
  norm_num

theorem c6_fix_problems :
    broadcastValidate fixP fixE fixFeed "src" (fixFeedRow.timestamp + 1) 0
      (pyIntTrunc ((0 : ℚ) * 100000000)) "t" "" = [] := by
  rw [c6_fix_ffi]
  unfold broadcastValidate
  have hA : ¬ ((fixFeedRow.timestamp + 1 : ℤ) > MAX_INT ∨ (0 : ℚ) > (MAX_INT : ℚ) ∨
      (0 : ℤ) > MAX_INT) := by
    unfold fixFeedRow MAX_INT
    norm_num
  rw [if_neg hA]
  decide

/-- Claim C6 (amended): with `timestamp == 0` and a prior valid
broadcast of the source, `compose` defaults the broadcast timestamp to
`last_feed_timestamp + 1`; the taproot-era CBOR payload encodes this
defaulted timestamp, but the legacy-era payload packs the raw
`timestamp` argument `0` (broadcast.py line 169 uses `timestamp`, not
`broadcast_timestamp`), so legacy-decoding the composed payload body
yields timestamp `0`, not the defaulted value. -/
theorem c6_amended (p : Protocol) (E : Externals) (feed : List BroadcastRow)
    (source : String) (value feeFraction : ℚ) (text mimeType : String)
    (lb : BroadcastRow) (hlb : lastValidBroadcast feed = some lb)
    (hok : broadcastValidate p E feed source (lb.timestamp + 1) value
      (pyIntTrunc (feeFraction * 100000000)) text mimeType = []) :
    (p.taprootSupport = true →
      composeBroadcast p E feed source 0 value feeFraction text mimeType false =
        .ok (source, [], 30 :: 0x85 ::
          (cborInt (lb.timestamp + 1) ++ (0xfb :: E.packDouble value)
            ++ cborInt (pyIntTrunc (feeFraction * 100000000)) ++ cborStr mimeType
            ++ cborBytes (E.contentToBytes text
                (if mimeType = "" then "text/plain" else mimeType))))) ∧
    (p.taprootSupport = false → p.broadcastPackText = true →
      0 ≤ pyIntTrunc (feeFraction * 100000000) →
      pyIntTrunc (feeFraction * 100000000) < 2 ^ 32 →
      (E.packDouble value).length = 8 →
      (utf8Encode text).length < 2 ^ 64 →
      composeBroadcast p E feed source 0 value feeFraction text mimeType false =
        .ok (source, [],
          beBytes 4 30 ++ (beBytes 4 0 ++ E.packDouble value
            ++ beBytes 4 (pyIntTrunc (feeFraction * 100000000)).toNat
            ++ varintSer (utf8Encode text).length ++ utf8Encode text)) ∧
      legacyDecodedTimestamp true
        (beBytes 4 0 ++ E.packDouble value
          ++ beBytes 4 (pyIntTrunc (feeFraction * 100000000)).toNat
          ++ varintSer (utf8Encode text).length ++ utf8Encode text) = some 0) := by
  refine ⟨fun htap => composeBroadcast_taproot_default p E feed source value feeFraction
    text mimeType lb hlb hok htap, ?_⟩
  intro htap hpt hffi0 hffiB hpd hbs
  refine ⟨composeBroadcast_legacy_default p E feed source value feeFraction
    text mimeType lb hlb hok htap hpt hffi0 hffiB, ?_⟩
  have hd := c6_decode_body (E.packDouble value) hpd
    (pyIntTrunc (feeFraction * 100000000)).toNat (utf8Encode text) hbs
  simpa [List.append_assoc] using hd

/-- Claim C6 counterexample: in the legacy era, composing with
timestamp `0` over a feed whose last valid broadcast has timestamp 100
produces a payload whose body legacy-decodes to timestamp `0`, not to
the defaulted `101`. -/
theorem c6_counterexample :
    composeBroadcast fixP fixE fixFeed "src" 0 0 0 "t" "" false =
      .ok ("src", [], fixC6Data) ∧
    lastValidBroadcast fixFeed = some fixFeedRow ∧
    fixFeedRow.timestamp + 1 = 101 ∧
    legacyDecodedTimestamp true (fixC6Data.drop 4) = some 0 ∧ (0 : ℤ) ≠ 101 := by
  refine ⟨?_, rfl, by decide, ?_, by decide⟩
  · have h := composeBroadcast_legacy_default fixP fixE fixFeed "src" 0 0 "t" ""
      fixFeedRow rfl c6_fix_problems rfl rfl (by norm_num [pyIntTrunc])
      (by rw [c6_fix_ffi]; norm_num)
    rw [h, c6_fix_ffi]
    rfl
  · have hd := c6_decode_body (List.replicate 8 0) (by decide) 0 [116] (by decide)
    simpa [fixC6Data] using hd

theorem c6_witness :
    composeBroadcast fixP fixE fixFeed "src" 0 0 0 "t" "" false =
      .ok ("src", [], beBytes 4 30 ++ (beBytes 4 0 ++ fixE.packDouble 0
        ++ beBytes 4 (pyIntTrunc ((0 : ℚ) * 100000000)).toNat
        ++ varintSer (utf8Encode "t").length ++ utf8Encode "t")) ∧
    legacyDecodedTimestamp true (beBytes 4 0 ++ fixE.packDouble 0
        ++ beBytes 4 (pyIntTrunc ((0 : ℚ) * 100000000)).toNat
        ++ varintSer (utf8Encode "t").length ++ utf8Encode "t") = some 0 :=
  (c6_amended fixP fixE fixFeed "src" 0 0 "t" "" fixFeedRow rfl c6_fix_problems).2
    rfl rfl (by norm_num [pyIntTrunc]) (by rw [c6_fix_ffi]; norm_num) rfl (by decide)

/-! ## Claim C5: at-most-one-open preservation -/

theorem debitBal_dispensers (st : DState) (a b : String) (q : ℤ) (s' : DState)
    (h : debitBal st a b q = .ok s') : s'.dispensers = st.dispensers := by
  unfold debitBal at h
  split at h
  · exact absurd h (by simp)
  · injection h with h
    subst h
    rfl

theorem creditBal_dispensers (st : DState) (a b : String) (q : ℤ) :
    (creditBal st a b q).dispensers = st.dispensers := rfl

theorem atMostOneOpen_congr (st s' : DState) (he : s'.dispensers = st.dispensers)
    (h : atMostOneOpen st) : atMostOneOpen s' := by
  unfold atMostOneOpen at *
  rw [he]
  exact h

theorem okd_left_ne (a b : DispenserRow) (h : ¬ a.status = 0) : openKeyDistinct a b := by
  unfold openKeyDistinct
  tauto

theorem okd_right_ne (a b : DispenserRow) (h : ¬ b.status = 0) : openKeyDistinct a b := by
  unfold openKeyDistinct
  tauto

theorem okd_congr_left (a a' b : DispenserRow) (h : openKeyDistinct a b)
    (hs : a'.status = a.status) (hsrc : a'.source = a.source) (hast : a'.asset = a.asset) :
    openKeyDistinct a' b := by
  unfold openKeyDistinct at h ⊢
  rw [hs, hsrc, hast]
  exact h

theorem okd_congr_right (a b b' : DispenserRow) (h : openKeyDistinct a b)
    (hs : b'.status = b.status) (hsrc : b'.source = b.source) (hast : b'.asset = b.asset) :
    openKeyDistinct a b' := by
  unfold openKeyDistinct at h ⊢
  rw [hs, hsrc, hast]
  exact h

theorem mem_updateFirstDisp (pred : DispenserRow → Bool) (f : DispenserRow → DispenserRow) :
    ∀ (l : List DispenserRow) (b : DispenserRow), b ∈ updateFirstDisp pred f l →
      b ∈ l ∨ ∃ r ∈ l, b = f r
  | [], b, hb => by simp [updateFirstDisp] at hb
  | r :: rest, b, hb => by
    rw [updateFirstDisp] at hb
    by_cases hp : pred r = true
    · rw [if_pos hp] at hb
      rcases List.mem_cons.mp hb with h | h
      · exact Or.inr ⟨r, by simp, h⟩
      · exact Or.inl (List.mem_cons_of_mem _ h)
    · rw [if_neg hp] at hb
      rcases List.mem_cons.mp hb with h | h
      · exact Or.inl (h ▸ List.mem_cons_self _ _)
      · rcases mem_updateFirstDisp pred f rest b h with h2 | ⟨r2, hr2, he⟩
        · exact Or.inl (List.mem_cons_of_mem _ h2)
        · exact Or.inr ⟨r2, List.mem_cons_of_mem _ hr2, he⟩

theorem pairwise_updateFirstDisp (pred : DispenserRow → Bool) (f : DispenserRow → DispenserRow)
    (hf : ∀ r, ((f r).status = r.status ∧ (f r).source = r.source ∧ (f r).asset = r.asset) ∨
      ¬ (f r).status = 0) :
    ∀ l : List DispenserRow, List.Pairwise openKeyDistinct l →
      List.Pairwise openKeyDistinct (updateFirstDisp pred f l)
  | [], h => h
  | r :: rest, h => by
    rcases List.pairwise_cons.mp h with ⟨hr, hrest⟩
    rw [updateFirstDisp]
    by_cases hp : pred r = true
    · rw [if_pos hp]
      refine List.pairwise_cons.mpr ⟨?_, hrest⟩
      intro b hb
      rcases hf r with ⟨hs, hsrc, hast⟩ | hne
      · exact okd_congr_left r (f r) b (hr b hb) hs hsrc hast
      · exact okd_left_ne _ _ hne
    · rw [if_neg hp]
      refine List.pairwise_cons.mpr ⟨?_, pairwise_updateFirstDisp pred f hf rest hrest⟩
      intro b hb
      rcases mem_updateFirstDisp pred f rest b hb with h2 | ⟨r2, hr2, he⟩
      · exact hr b h2
      · subst he
        rcases hf r2 with ⟨hs, hsrc, hast⟩ | hne
        · exact okd_congr_right r r2 (f r2) (hr r2 hr2) hs hsrc hast
        · exact okd_right_ne _ _ hne

theorem atMostOneOpen_insert (st : DState) (tx : Tx) (aa asset : String)
    (g e r : ℤ) (orc : Option String) (h : atMostOneOpen st)
    (hfil : st.dispensers.filter (openDispenserPred aa asset) = []) :
    atMostOneOpen (insertDispenser st tx aa asset g e r orc) := by
  unfold atMostOneOpen insertDispenser at *
  rw [List.pairwise_append]
  refine ⟨h, by simp, ?_⟩
  intro a ha b hb
  simp only [List.mem_singleton] at hb
  subst hb
  have hnot := List.filter_eq_nil_iff.mp hfil a ha
  simp only [openDispenserPred, Bool.and_eq_true, decide_eq_true_eq] at hnot
  unfold openKeyDistinct
  rintro ⟨ha0, _, hsrc, hast⟩
  exact hnot ⟨⟨hsrc, hast⟩, ha0⟩


theorem amoo_pair (st : DState) (s : String) (res : DState × String)
    (h : atMostOneOpen st) (hres : (st, s) = res) : atMostOneOpen res.1 := by
  rw [← hres]
  exact h

/-- Claim C5: every dispenser parse preserves the at-most-one-open
invariant: a new Open row is inserted only when the (address, asset)
pair has no Open dispenser, an existing one is either refilled in place
or the message rejected, and closing never creates an Open row. -/
theorem c5 (p : Protocol) (E : Externals) (st : DState) (tx : Tx) (msg : List ℕ)
    (h : atMostOneOpen st) : atMostOneOpen (dispenserParse p E st tx msg).1 := by
  have key : ∀ res : DState × String, dispenserParse p E st tx msg = res →
      atMostOneOpen res.1 := by
    intro res hres
    simp only [dispenserParse] at hres
    split at hres
    · exact amoo_pair _ _ _ h hres
    · rename_i asset give escrow rate dStatus action? oracle? hu
      split at hres
      · split at hres
        · split at hres
          · exact amoo_pair _ _ _ h hres
          · split at hres
            · split at hres
              · rename_i hfil
                split at hres
                · exact amoo_pair _ _ _ h hres
                · split at hres
                  · split at hres
                    · split at hres
                      · exact amoo_pair _ _ _ h hres
                      · rename_i s1 hdeb1
                        split at hres
                        · rw [← hres]
                          exact atMostOneOpen_congr st _
                            (by rw [creditBal_dispensers, debitBal_dispensers st _ _ _ s1 hdeb1]) h
                        · rename_i s3 hdeb2
                          rw [← hres]
                          have hd3 : s3.dispensers = st.dispensers := by
                            rw [debitBal_dispensers _ _ _ _ s3 hdeb2, creditBal_dispensers,
                              debitBal_dispensers st _ _ _ s1 hdeb1]
                          refine atMostOneOpen_insert s3 tx _ _ _ _ _ _
                            (atMostOneOpen_congr st s3 hd3 h) ?_
                          rw [hd3]
                          exact hfil
                    · exact amoo_pair _ _ _ h hres
                  · split at hres
                    · exact amoo_pair _ _ _ h hres
                    · rename_i s1 hdeb1
                      rw [← hres]
                      have hd1 : s1.dispensers = st.dispensers :=
                        debitBal_dispensers st _ _ _ s1 hdeb1
                      refine atMostOneOpen_insert s1 tx _ _ _ _ _ _
                        (atMostOneOpen_congr st s1 hd1 h) ?_
                      rw [hd1]
                      exact hfil
              · rename_i d0 hfil
                split at hres
                · split at hres
                  · split at hres
                    · exact amoo_pair _ _ _ h hres
                    · split at hres
                      · exact amoo_pair _ _ _ h hres
                      · rename_i s1 hdeb1
                        rw [← hres]
                        unfold atMostOneOpen
                        dsimp only
                        refine pairwise_updateFirstDisp _ _ ?_ s1.dispensers ?_
                        · intro r
                          exact Or.inl ⟨rfl, rfl, rfl⟩
                        · rw [debitBal_dispensers st _ _ _ s1 hdeb1]
                          exact h
                  · exact amoo_pair _ _ _ h hres
                · exact amoo_pair _ _ _ h hres
              · exact amoo_pair _ _ _ h hres
            · split at hres
              · split at hres
                · rename_i d0 hfil
                  split at hres
                  · rw [← hres]
                    unfold atMostOneOpen
                    dsimp only
                    refine pairwise_updateFirstDisp _ _ ?_ _ ?_
                    · intro r
                      exact Or.inr (by simp)
                    · rw [creditBal_dispensers]
                      exact h
                  · rw [← hres]
                    unfold atMostOneOpen
                    dsimp only
                    refine pairwise_updateFirstDisp _ _ ?_ _ ?_
                    · intro r
                      exact Or.inr (by simp)
                    · exact h
                · exact amoo_pair _ _ _ h hres
              · exact amoo_pair _ _ _ h hres
        · split at hres
          · exact amoo_pair _ _ _ h hres
          · split at hres
            · split at hres
              · rename_i hfil
                split at hres
                · exact amoo_pair _ _ _ h hres
                · split at hres
                  · split at hres
                    · split at hres
                      · exact amoo_pair _ _ _ h hres
                      · rename_i s1 hdeb1
                        split at hres
                        · rw [← hres]
                          exact atMostOneOpen_congr st _
                            (by rw [creditBal_dispensers, debitBal_dispensers st _ _ _ s1 hdeb1]) h
                        · rename_i s3 hdeb2
                          rw [← hres]
                          have hd3 : s3.dispensers = st.dispensers := by
                            rw [debitBal_dispensers _ _ _ _ s3 hdeb2, creditBal_dispensers,
                              debitBal_dispensers st _ _ _ s1 hdeb1]
                          refine atMostOneOpen_insert s3 tx _ _ _ _ _ _
                            (atMostOneOpen_congr st s3 hd3 h) ?_
                          rw [hd3]
                          exact hfil
                    · exact amoo_pair _ _ _ h hres
                  · split at hres
                    · exact amoo_pair _ _ _ h hres
                    · rename_i s1 hdeb1
                      rw [← hres]
                      have hd1 : s1.dispensers = st.dispensers :=
                        debitBal_dispensers st _ _ _ s1 hdeb1
                      refine atMostOneOpen_insert s1 tx _ _ _ _ _ _
                        (atMostOneOpen_congr st s1 hd1 h) ?_
                      rw [hd1]
                      exact hfil
              · rename_i d0 hfil
                split at hres
                · split at hres
                  · split at hres
                    · exact amoo_pair _ _ _ h hres
                    · split at hres
                      · exact amoo_pair _ _ _ h hres
                      · rename_i s1 hdeb1
                        rw [← hres]
                        unfold atMostOneOpen
                        dsimp only
                        refine pairwise_updateFirstDisp _ _ ?_ s1.dispensers ?_
                        · intro r
                          exact Or.inl ⟨rfl, rfl, rfl⟩
                        · rw [debitBal_dispensers st _ _ _ s1 hdeb1]
                          exact h
                  · exact amoo_pair _ _ _ h hres
                · exact amoo_pair _ _ _ h hres
              · exact amoo_pair _ _ _ h hres
            · split at hres
              · split at hres
                · rename_i d0 hfil
                  split at hres
                  · rw [← hres]
                    unfold atMostOneOpen
                    dsimp only
                    refine pairwise_updateFirstDisp _ _ ?_ _ ?_
                    · intro r
                      exact Or.inr (by simp)
                    · rw [creditBal_dispensers]
                      exact h
                  · rw [← hres]
                    unfold atMostOneOpen
                    dsimp only
                    refine pairwise_updateFirstDisp _ _ ?_ _ ?_
                    · intro r
                      exact Or.inr (by simp)
                    · exact h
                · exact amoo_pair _ _ _ h hres
              · exact amoo_pair _ _ _ h hres
      · split at hres
        · exact amoo_pair _ _ _ h hres
        · split at hres
          · split at hres
            · rename_i hfil
              split at hres
              · exact amoo_pair _ _ _ h hres
              · split at hres
                · split at hres
                  · split at hres
                    · exact amoo_pair _ _ _ h hres
                    · rename_i s1 hdeb1
                      split at hres
                      · rw [← hres]
                        exact atMostOneOpen_congr st _
                          (by rw [creditBal_dispensers, debitBal_dispensers st _ _ _ s1 hdeb1]) h
                      · rename_i s3 hdeb2
                        rw [← hres]
                        have hd3 : s3.dispensers = st.dispensers := by
                          rw [debitBal_dispensers _ _ _ _ s3 hdeb2, creditBal_dispensers,
                            debitBal_dispensers st _ _ _ s1 hdeb1]
                        refine atMostOneOpen_insert s3 tx _ _ _ _ _ _
                          (atMostOneOpen_congr st s3 hd3 h) ?_
                        rw [hd3]
                        exact hfil
                  · exact amoo_pair _ _ _ h hres
                · split at hres
                  · exact amoo_pair _ _ _ h hres
                  · rename_i s1 hdeb1
                    rw [← hres]
                    have hd1 : s1.dispensers = st.dispensers :=
                      debitBal_dispensers st _ _ _ s1 hdeb1
                    refine atMostOneOpen_insert s1 tx _ _ _ _ _ _
                      (atMostOneOpen_congr st s1 hd1 h) ?_
                    rw [hd1]
                    exact hfil
            · rename_i d0 hfil
              split at hres
              · split at hres
                · split at hres
                  · exact amoo_pair _ _ _ h hres
                  · split at hres
                    · exact amoo_pair _ _ _ h hres
                    · rename_i s1 hdeb1
                      rw [← hres]
                      unfold atMostOneOpen
                      dsimp only
                      refine pairwise_updateFirstDisp _ _ ?_ s1.dispensers ?_
                      · intro r
                        exact Or.inl ⟨rfl, rfl, rfl⟩
                      · rw [debitBal_dispensers st _ _ _ s1 hdeb1]
                        exact h
                · exact amoo_pair _ _ _ h hres
              · exact amoo_pair _ _ _ h hres
            · exact amoo_pair _ _ _ h hres
          · split at hres
            · split at hres
              · rename_i d0 hfil
                split at hres
                · rw [← hres]
                  unfold atMostOneOpen
                  dsimp only
                  refine pairwise_updateFirstDisp _ _ ?_ _ ?_
                  · intro r
                    exact Or.inr (by simp)
                  · rw [creditBal_dispensers]
                    exact h
                · rw [← hres]
                  unfold atMostOneOpen
                  dsimp only
                  refine pairwise_updateFirstDisp _ _ ?_ _ ?_
                  · intro r
                    exact Or.inr (by simp)
                  · exact h
              · exact amoo_pair _ _ _ h hres
            · exact amoo_pair _ _ _ h hres
  exact key _ rfl

theorem c5_witness :
    atMostOneOpen fixSt9 ∧ atMostOneOpen (dispenserParse fixP fixE fixSt9 fixTx fixMsg9).1 :=
  ⟨by decide, c5 fixP fixE fixSt9 fixTx fixMsg9 (by decide)⟩

/-! ## Claim C9: status-string classification -/

theorem pyStartsWith_append (s t : String) : pyStartsWith s (s ++ t) = true := by
  unfold pyStartsWith
  rw [String.data_append]
  simp [List.isPrefixOf_iff_prefix]

theorem dispenserParse_statuses (p : Protocol) (E : Externals) (st : DState) (tx : Tx)
    (msg : List ℕ) :
    (dispenserParse p E st tx msg).2 = "valid" ∨
    pyStartsWith "invalid: " (dispenserParse p E st tx msg).2 = true ∨
    (dispenserParse p E st tx msg).2 ∈
      ["insufficient funds", "can only have one open dispenser per asset per address",
       "dispenser inexistent"] := by
  have key : ∀ res : DState × String, dispenserParse p E st tx msg = res →
      res.2 = "valid" ∨ pyStartsWith "invalid: " res.2 = true ∨ res.2 ∈
        ["insufficient funds", "can only have one open dispenser per asset per address",
         "dispenser inexistent"] := by
    intro res hres
    simp only [dispenserParse] at hres
    repeat' split at hres
    all_goals rw [← hres]
    all_goals dsimp only
    all_goals first
      | exact Or.inl rfl
      | exact Or.inr (Or.inl (pyStartsWith_append _ _))
      | exact Or.inr (Or.inl (by decide))
      | exact Or.inr (Or.inr (by decide))
  exact key _ rfl

/-- Claim C9 (amended): a broadcast parse whose unpacked status is
`"valid"` or already `"invalid: "`-prefixed records a status that is
`"valid"` or `"invalid: "`-prefixed (validation failures are
`"invalid: "` ++ the `"; "`-joined reasons); a dispenser parse records
`"valid"`, an `"invalid: "`-prefixed status, or one of the three bare
statuses `"insufficient funds"`,
`"can only have one open dispenser per asset per address"` and
`"dispenser inexistent"`, which lack the prefix. -/
theorem c9_amended :
    (∀ (p : Protocol) (E : Externals) (feed : List BroadcastRow) (source : String)
        (i : BParseInput),
      i.status = "valid" ∨ pyStartsWith "invalid: " i.status = true →
      (parseBroadcast p E feed source i).2 = "valid" ∨
        pyStartsWith "invalid: " (parseBroadcast p E feed source i).2 = true) ∧
    (∀ (p : Protocol) (E : Externals) (st : DState) (tx : Tx) (msg : List ℕ),
      (dispenserParse p E st tx msg).2 = "valid" ∨
      pyStartsWith "invalid: " (dispenserParse p E st tx msg).2 = true ∨
      (dispenserParse p E st tx msg).2 ∈
        ["insufficient funds", "can only have one open dispenser per asset per address",
         "dispenser inexistent"]) := by
  constructor
  · intro p E feed source i hi
    have h2 : (parseBroadcast p E feed source i).2 = broadcastStatusOf p E feed source i := rfl
    rw [h2]
    unfold broadcastStatusOf
    split
    · split
      · exact Or.inl rfl
      · exact Or.inr (pyStartsWith_append _ _)
    · rename_i hne
      rcases hi with hi | hi
      · exact absurd hi hne
      · exact Or.inr hi
  · intro p E st tx msg
    exact dispenserParse_statuses p E st tx msg

/-- Claim C9 counterexample: a second open message for (src, A100) with
a different mainchainrate is rejected with the bare status
`"can only have one open dispenser per asset per address"` — recorded
without the `"invalid: "` prefix (dispenser.py line 610). -/
theorem c9_counterexample :
    dispenserParse fixP fixE fixSt9 fixTx fixMsg9 =
      (fixSt9, "can only have one open dispenser per asset per address") ∧
    pyStartsWith "invalid: " (dispenserParse fixP fixE fixSt9 fixTx fixMsg9).2 = false ∧
    (dispenserParse fixP fixE fixSt9 fixTx fixMsg9).2 ≠ "valid" :=
  ⟨by decide, by decide, by decide⟩

theorem c9_witness :
    ((parseBroadcast fixP fixE fixFeed "src" fixLockInput).2 = "valid" ∨
      pyStartsWith "invalid: " (parseBroadcast fixP fixE fixFeed "src" fixLockInput).2 = true) ∧
    ((dispenserParse fixP fixE fixSt9 fixTx fixMsgOpen).2 = "valid" ∨
      pyStartsWith "invalid: " (dispenserParse fixP fixE fixSt9 fixTx fixMsgOpen).2 = true ∨
      (dispenserParse fixP fixE fixSt9 fixTx fixMsgOpen).2 ∈
        ["insufficient funds", "can only have one open dispenser per asset per address",
         "dispenser inexistent"]) :=
  ⟨c9_amended.1 fixP fixE fixFeed "src" fixLockInput (Or.inl rfl),
   c9_amended.2 fixP fixE fixSt9 fixTx fixMsgOpen⟩

/-! ## Claim C7: empty-address open checks -/

theorem c7_validate_mem (p : Protocol) (E : Externals) (st : DState)
    (source asset action : String) (give escrow rate bi : ℤ)
    (b : BalanceRow) (bs : List BalanceRow)
    (hdm : p.dispenserMustBeCreatedBySource = false)
    (hdo : p.dispenserOriginPermissionExtended = false)
    (hBTC : asset ≠ "BTC") (hres : E.resolveSubasset asset = asset)
    (hav : balanceRows st source asset = b :: bs)
    (hbq : ¬ b.quantity < escrow)
    (hdisp : getDispensers st action asset [0, 11] none = [])
    (hane : action ≠ "")
    (hcnt : 0 < balanceRowsCount st action) :
    "cannot open on another address if it has any balance history" ∈
      (dispenserValidate p E st source asset give escrow rate 1 (some action) bi none).2 := by
  simp only [dispenserValidate]
  rw [if_neg hBTC, hres, hav]
  dsimp only
  rw [if_neg hbq]
  simp [hdm, hdo, hane, hdisp, hcnt, hcnt.ne']

/-- Claim C7 (amended): the *validation* path rejects an
OpenEmptyAddress onto a target with any balance row — even quantity
0 — with `"cannot open on another address if it has any balance
history"` (the check counts rows); but the *parse-time* gate
`is_empty_address` (dispenser.py lines 434-446) checks only that no
asset at the target has a *positive* balance, so a zero-quantity row
does not stop the parse path. -/
theorem c7_amended :
    (∀ (p : Protocol) (E : Externals) (st : DState)
        (source asset action : String) (give escrow rate bi : ℤ)
        (b : BalanceRow) (bs : List BalanceRow),
      p.dispenserMustBeCreatedBySource = false →
      p.dispenserOriginPermissionExtended = false →
      asset ≠ "BTC" → E.resolveSubasset asset = asset →
      balanceRows st source asset = b :: bs →
      ¬ b.quantity < escrow →
      getDispensers st action asset [0, 11] none = [] →
      action ≠ "" →
      0 < balanceRowsCount st action →
      "cannot open on another address if it has any balance history" ∈
        (dispenserValidate p E st source asset give escrow rate 1 (some action) bi none).2) ∧
    (∀ (st : DState) (aa : String),
      isEmptyAddress st aa = true ↔ ∀ a ∈ addressAssets st aa, getBalance st aa a ≤ 0) :=
  ⟨fun p E st source asset action give escrow rate bi b bs hdm hdo hBTC hres hav hbq
      hdisp hane hcnt =>
    c7_validate_mem p E st source asset action give escrow rate bi b bs hdm hdo hBTC
      hres hav hbq hdisp hane hcnt,
   fun st aa => by simp [isEmptyAddress]⟩

/-- Claim C7 counterexample: the target address has a (zero-quantity)
balance row, yet with parsing validation off the OpenEmptyAddress parse
succeeds: the parse-time gate tests positivity, not row presence, and
an open dispenser is created at the target. -/
theorem c7_counterexample :
    0 < balanceRowsCount fixSt7 fixTarget ∧
    isEmptyAddress fixSt7 fixTarget = true ∧
    (dispenserParse fixP fixE fixSt7 fixTx fixMsg7).2 = "valid" ∧
    ((dispenserParse fixP fixE fixSt7 fixTx fixMsg7).1.dispensers.map
      fun r => (r.source, r.asset, r.status)) = [(fixTarget, "A100", 0)] :=
  ⟨by decide, by decide, by decide, by decide⟩

theorem c7_witness :
    "cannot open on another address if it has any balance history" ∈
      (dispenserValidate fixP fixE fixSt7 "src" "A100" 10 100 5 1 (some fixTarget)
        700000 none).2 ∧
    (isEmptyAddress fixSt7 fixTarget = true ↔
      ∀ a ∈ addressAssets fixSt7 fixTarget, getBalance fixSt7 fixTarget a ≤ 0) :=
  ⟨c7_amended.1 fixP fixE fixSt7 "src" "A100" fixTarget 10 100 5 700000
      { address := "src", asset := "A100", quantity := 1000 } [] rfl rfl (by decide) rfl
      (by decide) (by decide) (by decide) (by decide) (by decide),
   c7_amended.2 fixSt7 fixTarget⟩
